import Mathlib

/-!
# libTAS: intercepted SDL entry points

A shallow embedding of `src/libTAS/inputs/sdlgamecontroller.cpp` (the emulated game
controllers) and of `src/libTAS/libTAS.cpp` (start-up handshake, subsystem
initialisation), followed by the properties established about them.

Conventions of the embedding

* C integers (`int`, `SDL_JoystickID`, enumerators) are `Int`; unsigned bitmasks are `Nat`.
* `SDL_bool` is `Bool`.
* A `SDL_GameController*` handle is represented by the `int` it points to
  (`typedef int SDL_GameController`, `*gc_id = joystick_index`).
* An access to a C array outside its bounds has no defined result: the embedded
  function returns `none`.
* Calls to `debuglog` are omitted.
-/

namespace libtas

/-! ## Game controllers (`sdlgamecontroller.cpp`) -/

/-- Modelled from the spec: `shared/AllInputs.h` is not among the sources. The part of the
input record `ai` read by the controller queries: for each of the four slots an array
of axis values indexed `0 .. nAxes-1` and a bitmask of button states. -/
structure AllInputs (nAxes : Nat) where
  /-- The entry `ai.controller_axes[slot][axis]` -/
  controller_axes : Fin 4 → Fin nAxes → Int
  /-- The entry `ai.controller_buttons[slot]` -/
  controller_buttons : Fin 4 → Nat

/-- The globals read and written by `sdlgamecontroller.cpp`. The parameter `nAxes` is the
value of the SDL enumerator `SDL_CONTROLLER_AXIS_MAX`, declared in the SDL headers. -/
structure State (nAxes : Nat) where
  /-- The variable `tasflags.numControllers` -/
  numControllers : Int
  /-- The C declaration `SDL_JoystickID joyid[4]` -/
  joyid : Fin 4 → Int
  /-- The variable `ai`: the inputs of the current frame -/
  ai : AllInputs nAxes
  /-- The C declaration `bool sdl_controller_events` -/
  sdl_controller_events : Bool

/-- The enumerator `SDL_CONTROLLER_AXIS_MAX` as the C integer compared against an axis argument. -/
def SDL_CONTROLLER_AXIS_MAX (nAxes : Nat) : Int := (nAxes : Int)

/-- The state set up by the static initialisers:
`sdl_controller_events = true`, `joyid[4] = {-1, -1, -1, -1}`. -/
def State.initial {nAxes : Nat} (numControllers : Int) (ai : AllInputs nAxes) : State nAxes :=
  { numControllers := numControllers
    joyid := fun _ => -1
    ai := ai
    sdl_controller_events := true }

/-- The expression `t[i]` for a four-entry array `t` and a C integer `i`. -/
def readSlot {α : Type} (t : Fin 4 → α) (i : Int) : Option α :=
  if h : 0 ≤ i ∧ i < 4 then some (t ⟨i.toNat, by omega⟩) else none

/-- The assignment `t[i] = v` for a four-entry array `t` and a C integer `i`. -/
def writeSlot {α : Type} (t : Fin 4 → α) (i : Int) (v : α) : Option (Fin 4 → α) :=
  if h : 0 ≤ i ∧ i < 4 then some (Function.update t ⟨i.toNat, by omega⟩ v) else none

/-- The expression `row[axis]` for one row of `ai.controller_axes`. -/
def readAxis {nAxes : Nat} (row : Fin nAxes → Int) (axis : Int) : Option Int :=
  if h : 0 ≤ axis ∧ axis < (nAxes : Int) then some (row ⟨axis.toNat, by omega⟩) else none

/-- The C declaration `SDL_bool SDL_IsGameController(int joystick_index)` -/
def SDL_IsGameController {nAxes : Nat} (s : State nAxes) (joystick_index : Int) : Bool :=
  if joystick_index ≥ 0 ∧ joystick_index < s.numControllers then true else false

/-- The C declaration `SDL_GameController *SDL_GameControllerOpen(int joystick_index)`: the returned pair is the
content of the fresh handle and the state after the call. -/
def SDL_GameControllerOpen {nAxes : Nat} (s : State nAxes) (joystick_index : Int) :
    Option (Int × State nAxes) :=
  let gc_id := joystick_index
  match writeSlot s.joyid joystick_index joystick_index with
  | none => none
  | some joyid => some (gc_id, { s with joyid := joyid })

/-- The C declaration `SDL_bool SDL_GameControllerGetAttached(SDL_GameController *gamecontroller)` -/
def SDL_GameControllerGetAttached {nAxes : Nat} (s : State nAxes) (gamecontroller : Int) :
    Option Bool :=
  match readSlot s.joyid gamecontroller with
  | none => none
  | some j => if j ≠ -1 then some true else some false

/-- The C declaration `Sint16 SDL_GameControllerGetAxis(SDL_GameController *gamecontroller, SDL_GameControllerAxis axis)` -/
def SDL_GameControllerGetAxis {nAxes : Nat} (s : State nAxes) (gamecontroller : Int)
    (axis : Int) : Option Int :=
  match readSlot s.joyid gamecontroller with
  | none => none
  | some j =>
    if j = -1 then some 0
    else if axis < 0 ∨ axis ≥ SDL_CONTROLLER_AXIS_MAX nAxes then some 0
    else
      match readSlot s.ai.controller_axes j with
      | none => none
      | some row => readAxis row axis

/-- The C declaration `Uint8 SDL_GameControllerGetButton(SDL_GameController *gamecontroller, SDL_GameControllerButton button)`.
The first argument is the value of the SDL enumerator `SDL_CONTROLLER_BUTTON_MAX`. -/
def SDL_GameControllerGetButton {nAxes : Nat} (SDL_CONTROLLER_BUTTON_MAX : Int)
    (s : State nAxes) (gamecontroller : Int) (button : Int) : Option Nat :=
  match readSlot s.joyid gamecontroller with
  | none => none
  | some j =>
    if j = -1 then some 0
    else if button < 0 ∨ button ≥ SDL_CONTROLLER_BUTTON_MAX then some 0
    else
      match readSlot s.ai.controller_buttons j with
      | none => none
      | some m => some (((m >>> button.toNat) &&& 0x1) % 256)

/-- The C declaration `void SDL_GameControllerClose(SDL_GameController *gamecontroller)` -/
def SDL_GameControllerClose {nAxes : Nat} (s : State nAxes) (gamecontroller : Int) :
    Option (State nAxes) :=
  match writeSlot s.joyid gamecontroller (-1) with
  | none => none
  | some joyid => some { s with joyid := joyid }

/-- The C declaration `int SDL_GameControllerEventState(int state)`: the returned value and the
state after the call. The `bool` returned in the query case converts to 1 or 0. -/
def SDL_GameControllerEventState {nAxes : Nat} (s : State nAxes) (state : Int) :
    Int × State nAxes :=
  if state = 1 then (1, { s with sdl_controller_events := true })
  else if state = 0 then (0, { s with sdl_controller_events := false })
  else if state = -1 then ((if s.sdl_controller_events then 1 else 0), s)
  else (state, s)

/-- The runtime storing the inputs of a new frame in `ai`. -/
def setInputs {nAxes : Nat} (s : State nAxes) (ai : AllInputs nAxes) : State nAxes :=
  { s with ai := ai }

/-- One event in the life of the controller state: a call of the game to open or close a
controller, or the runtime storing new inputs. -/
inductive Call (nAxes : Nat) where
  | gcOpen (joystick_index : Int)
  | gcClose (gamecontroller : Int)
  | inputs (ai : AllInputs nAxes)

/-- Effect of one event on the state. -/
def Call.apply {nAxes : Nat} (s : State nAxes) : Call nAxes → Option (State nAxes)
  | .gcOpen i => (SDL_GameControllerOpen s i).map Prod.snd
  | .gcClose gc => SDL_GameControllerClose s gc
  | .inputs ai => some (setInputs s ai)

/-- Effect of a sequence of events, oldest first. -/
def run {nAxes : Nat} (s : State nAxes) : List (Call nAxes) → Option (State nAxes)
  | [] => some s
  | c :: cs =>
    match c.apply s with
    | none => none
    | some s1 => run s1 cs

/-- Whether an event is a close of the handle of index `i`. -/
def Call.isCloseOf {nAxes : Nat} (i : Int) : Call nAxes → Bool
  | .gcClose gc => decide (gc = i)
  | _ => false

/-- Whether an open or close event addresses one of the four entries of `joyid`. -/
def Call.inTable {nAxes : Nat} : Call nAxes → Prop
  | .gcOpen i => 0 ≤ i ∧ i < 4
  | .gcClose gc => 0 ≤ gc ∧ gc < 4
  | .inputs _ => True

instance {nAxes : Nat} (c : Call nAxes) : Decidable c.inTable := by
  cases c <;> unfold Call.inTable <;> infer_instance

/-- Whether the most recent open-or-close call on index `i` is an open, after one more event;
`before` is the answer before the event. -/
def Call.lastWasOpen {nAxes : Nat} (i : Int) (before : Bool) : Call nAxes → Bool
  | .gcOpen j => if j = i then true else before
  | .gcClose gc => if gc = i then false else before
  | .inputs _ => before

/-- Whether the most recent open-or-close call on index `i` in a sequence of events is an open;
false when the sequence has no such call. -/
def lastWasOpen {nAxes : Nat} (i : Int) (cs : List (Call nAxes)) : Bool :=
  cs.foldl (Call.lastWasOpen i) false

/-- The content of the handles returned by the opens of a sequence of events. -/
def handlesOf {nAxes : Nat} : List (Call nAxes) → List Int
  | [] => []
  | .gcOpen i :: cs => i :: handlesOf cs
  | _ :: cs => handlesOf cs

/-- The discipline of a sequence of events: `SDL_GameControllerOpen` is only called with an index
for which `SDL_IsGameController` is true, and `SDL_GameControllerClose` only with a handle that
an earlier open returned. The list argument holds the handles returned so far. -/
def disciplined {nAxes : Nat} (s0 : State nAxes) : List Int → List (Call nAxes) → Bool
  | _, [] => true
  | hs, .gcOpen i :: cs => SDL_IsGameController s0 i && disciplined s0 (i :: hs) cs
  | hs, .gcClose gc :: cs => decide (gc ∈ hs) && disciplined s0 hs cs
  | hs, .inputs _ :: cs => disciplined s0 hs cs

/-- Inputs with every axis at `v` and every button bitmask equal to `m`. -/
def AllInputs.const (nAxes : Nat) (v : Int) (m : Nat) : AllInputs nAxes :=
  { controller_axes := fun _ _ => v, controller_buttons := fun _ => m }

/-- Inputs as left by `emptyInputs`: every axis centred, no button pressed. -/
def AllInputs.empty (nAxes : Nat) : AllInputs nAxes := AllInputs.const nAxes 0 0

/-- The state reached from `s` by a sequence of events (`s` itself when an event is undefined). -/
def stateAfter {nAxes : Nat} (s : State nAxes) (cs : List (Call nAxes)) : State nAxes :=
  (run s cs).getD s

/-- Scenario: two controllers configured, nothing opened yet, empty inputs, six axes. -/
def twoControllers : State 6 := State.initial 2 (AllInputs.empty 6)

/-- Scenario: one controller configured, every button bit of the low byte pressed and every axis
at 7, nothing opened yet. -/
def oneController : State 6 := State.initial 1 (AllInputs.const 6 7 0xFF)

/-! ## Start-up handshake and subsystem initialisation (`libTAS.cpp`) -/

/-- One byte of the socket stream. -/
abbrev Byte := Nat

/-- Declarations used by `init` that lie outside the sources, taken as parameters: the message
tags of `shared/messages.h`, the sizes of the C types read from the socket, and the value an
`int` or a `size_t` has given its bytes. The tags are enumerators, hence pairwise distinct; an
`int` occupies at least one byte. -/
structure Wire where
  MSGN_CONFIG : Int
  MSGN_DUMP_FILE : Int
  MSGN_LIB_FILE : Int
  MSGN_END_INIT : Int
  MSGB_PID : Int
  MSGB_END_INIT : Int
  MSGB_QUIT : Int
  sizeof_int : Nat
  sizeof_size_t : Nat
  sizeof_SharedConfig : Nat
  /-- Size of the length that precedes a string sent over the socket. -/
  sizeof_string_length : Nat
  decodeInt : List Byte → Int
  decodeSize : List Byte → Nat
  sizeof_int_pos : 0 < sizeof_int
  tags_distinct : [MSGN_CONFIG, MSGN_DUMP_FILE, MSGN_LIB_FILE, MSGN_END_INIT].Nodup

/-- What the entry points of `libTAS.cpp` do to the world outside their own variables, in the
order in which it happens. -/
inductive Effect where
  /-- The call `sendMessage(tag)` -/
  | sendMessage (tag : Int)
  /-- The call `sendData(&mypid, sizeof(pid_t))` -/
  | sendPid (mypid : Int)
  /-- The call `ai.emptyInputs()` -/
  | aiEmptyInputs
  /-- The call `old_ai.emptyInputs()` -/
  | oldAiEmptyInputs
  /-- The call `game_ai.emptyInputs()` -/
  | gameAiEmptyInputs
  /-- The call `nonDetTimer.initialize()` -/
  | nonDetTimerInitialized
  /-- The call `detTimer.initialize()` -/
  | detTimerInitialized
  /-- The call `audiocontext.init()` -/
  | audiocontextInit
  /-- The call `ThreadManager::init()` -/
  | threadManagerInit
  /-- The call `link_sdlwindows()` -/
  | linkSdlwindows
  /-- The call `link_sdlevents()` -/
  | linkSdlevents
  /-- The call `link_sdlthreads()` -/
  | linkSdlthreads
  /-- The call `link_sdltimer()` -/
  | linkSdltimer
  /-- The call `setMainThread()` -/
  | setMainThread
  /-- A call of the real `SDL_Init` through `orig::SDL_Init` -/
  | realInit (flags : Nat)
  /-- A call of the real `SDL_InitSubSystem` through `orig::SDL_InitSubSystem` -/
  | realInitSubSystem (flags : Nat)
  /-- A call of the real `SDL_Quit` through `orig::SDL_Quit` -/
  | realQuit
  deriving DecidableEq, Repr

/-- The variables `init` works on: the bytes the controller has sent and `init` has not yet
received, the record `shared_config`, `av_filename`, the list filled by `add_lib`, and the
effects so far. -/
structure InitState where
  incoming : List Byte
  shared_config : List Byte
  av_filename : Option (List Byte)
  libraries : List (List Byte)
  effects : List Effect
  deriving DecidableEq, Repr

/-- How a piece of code ends. -/
inductive Outcome where
  /-- It ran to its end. -/
  | returned (st : InitState)
  /-- It called `exit(status)`. -/
  | exited (status : Int) (st : InitState)
  /-- It waits in a receive for bytes that the stream does not hold. -/
  | blocked (st : InitState)
  /-- The bound on the number of rounds of the embedding was reached (never the case when
  started from `init`, whose bound exceeds the length of the stream). -/
  | outOfFuel (st : InitState)
  deriving DecidableEq, Repr

/-- Modelled from the spec: `shared/sockethelpers` is not among the sources. `receiveData(p, n)`
takes the next `n` bytes of the stream; the result is these bytes and the rest of the stream,
or `none` when the stream holds fewer than `n` bytes. -/
def receiveData (n : Nat) (incoming : List Byte) : Option (List Byte × List Byte) :=
  if n ≤ incoming.length then some (incoming.take n, incoming.drop n) else none

/-- Modelled from the spec: `receiveString()` of `shared/sockethelpers` receives a
length-prefixed string: a length, then that many bytes. -/
def receiveString (w : Wire) (incoming : List Byte) : Option (List Byte × List Byte) :=
  match receiveData w.sizeof_string_length incoming with
  | none => none
  | some (lenBytes, rest) => receiveData (w.decodeSize lenBytes) rest

/-- Modelled from the spec: `add_lib` of `dlhook` records the library for later loading, at the
end of the list. -/
def add_lib (libraries : List (List Byte)) (libstring : List Byte) : List (List Byte) :=
  libraries ++ [libstring]

/-- The body of `switch (message)` in `init`. -/
def handleMessage (w : Wire) (message : Int) (st : InitState) : Outcome :=
  if message = w.MSGN_CONFIG then
    match receiveData w.sizeof_SharedConfig st.incoming with
    | none => .blocked st
    | some (record, rest) => .returned { st with shared_config := record, incoming := rest }
  else if message = w.MSGN_DUMP_FILE then
    match receiveData w.sizeof_size_t st.incoming with
    | none => .blocked st
    | some (lenBytes, rest) =>
      let dump_len := w.decodeSize lenBytes
      match receiveData dump_len rest with
      | none => .blocked { st with incoming := rest }
      | some (name, rest2) => .returned { st with av_filename := some name, incoming := rest2 }
  else if message = w.MSGN_LIB_FILE then
    match receiveString w st.incoming with
    | none => .blocked st
    | some (libstring, rest) =>
      .returned { st with libraries := add_lib st.libraries libstring, incoming := rest }
  else
    .exited 1 st

/-- The loop of `init`,
`while (message != MSGN_END_INIT) { switch (message) { ... } receiveData(&message, sizeof(int)); }`,
entered with the tag held by `message`. The first argument bounds the number of rounds. -/
def whileLoop (w : Wire) : Nat → Int → InitState → Outcome
  | 0, _, st => .outOfFuel st
  | fuel + 1, message, st =>
    if message ≠ w.MSGN_END_INIT then
      match handleMessage w message st with
      | .returned st1 =>
        match receiveData w.sizeof_int st1.incoming with
        | none => .blocked st1
        | some (bytes, rest) =>
          whileLoop w fuel (w.decodeInt bytes) { st1 with incoming := rest }
      | o => o
    else .returned st

/-- The receive phase of `init`: `receiveData(&message, sizeof(int));` followed by the loop. -/
def recvLoop (w : Wire) (fuel : Nat) (st : InitState) : Outcome :=
  match receiveData w.sizeof_int st.incoming with
  | none => .blocked st
  | some (bytes, rest) => whileLoop w fuel (w.decodeInt bytes) { st with incoming := rest }

/-- What `init` sends before it starts to receive. -/
def handshakeSends (w : Wire) (mypid : Int) : List Effect :=
  [.sendMessage w.MSGB_PID, .sendPid mypid, .sendMessage w.MSGB_END_INIT]

/-- What `init` does after the receive loop: inputs, timers, audio, thread manager. -/
def postHandshake : List Effect :=
  [.aiEmptyInputs, .oldAiEmptyInputs, .gameAiEmptyInputs, .nonDetTimerInitialized,
   .detTimerInitialized, .audiocontextInit, .threadManagerInit]

/-- The C declaration `void __attribute__((constructor)) init(void)`; `didConnect` is the result of
`initSocketGame()` and `mypid` that of `getpid()`. Every round of the loop receives at least
one byte, so the bound given to the loop is never reached. -/
def init (w : Wire) (didConnect : Bool) (mypid : Int) (st : InitState) : Outcome :=
  if !didConnect then .returned st
  else
    let st1 := { st with effects := st.effects ++ handshakeSends w mypid }
    match recvLoop w (st1.incoming.length + 1) st1 with
    | .returned st2 => .returned { st2 with effects := st2.effects ++ postHandshake }
    | o => o

/-- A message of the configuration phase as the controller sends it: the bytes of its tag,
then the bytes of its payload. -/
inductive Message where
  /-- configuration tag, fixed-size record -/
  | config (tag record : List Byte)
  /-- dump-target tag, size, that many bytes -/
  | dumpFile (tag size name : List Byte)
  /-- auxiliary-library tag, length, that many bytes -/
  | libFile (tag length str : List Byte)
  deriving DecidableEq, Repr

/-- The bytes of a message on the stream. -/
def Message.bytes : Message → List Byte
  | .config tag record => tag ++ record
  | .dumpFile tag size name => tag ++ (size ++ name)
  | .libFile tag length str => tag ++ (length ++ str)

/-- A message is well formed when its tag has the size of an `int` and the value of its kind,
and its payload has the announced size. -/
def Message.wellFormed (w : Wire) : Message → Prop
  | .config tag record =>
    tag.length = w.sizeof_int ∧ w.decodeInt tag = w.MSGN_CONFIG ∧
    record.length = w.sizeof_SharedConfig
  | .dumpFile tag size name =>
    tag.length = w.sizeof_int ∧ w.decodeInt tag = w.MSGN_DUMP_FILE ∧
    size.length = w.sizeof_size_t ∧ w.decodeSize size = name.length
  | .libFile tag length str =>
    tag.length = w.sizeof_int ∧ w.decodeInt tag = w.MSGN_LIB_FILE ∧
    length.length = w.sizeof_string_length ∧ w.decodeSize length = str.length

instance (w : Wire) (m : Message) : Decidable (m.wellFormed w) := by
  cases m <;> unfold Message.wellFormed <;> infer_instance

/-- The bytes of a sequence of messages. -/
def streamOf : List Message → List Byte
  | [] => []
  | m :: ms => m.bytes ++ streamOf ms

/-- What the spec says a message does to the variables of `init`: a configuration message
replaces the configuration record, a dump-target message sets the dump file name, an
auxiliary-library message appends its string to the library list. -/
def Message.store (st : InitState) : Message → InitState
  | .config _ record => { st with shared_config := record }
  | .dumpFile _ _ name => { st with av_filename := some name }
  | .libFile _ _ str => { st with libraries := st.libraries ++ [str] }

/-- The fixed-size record attached to a message, when it is a configuration message. -/
def Message.configRecord : Message → Option (List Byte)
  | .config _ record => some record
  | _ => none

/-- The string attached to a message, when it is an auxiliary-library message. -/
def Message.libString : Message → Option (List Byte)
  | .libFile _ _ str => some str
  | _ => none

/-- The four tags the configuration phase recognises. -/
def Wire.recognised (w : Wire) (tag : Int) : Prop :=
  tag = w.MSGN_CONFIG ∨ tag = w.MSGN_DUMP_FILE ∨ tag = w.MSGN_LIB_FILE ∨ tag = w.MSGN_END_INIT

instance (w : Wire) (tag : Int) : Decidable (w.recognised tag) := by
  unfold Wire.recognised
  infer_instance

/-- The value of a sequence of bytes read as a little-endian number. -/
def littleEndian : List Byte → Nat
  | [] => 0
  | b :: bs => b % 256 + 256 * littleEndian bs

/-- A layout for the examples: `int` of four bytes in two-complement little-endian form,
`size_t` and string lengths of eight bytes, a configuration record of eight bytes, and seven
distinct tag values. -/
def exampleWire : Wire where
  MSGN_CONFIG := 10
  MSGN_DUMP_FILE := 11
  MSGN_LIB_FILE := 12
  MSGN_END_INIT := 13
  MSGB_PID := 20
  MSGB_END_INIT := 21
  MSGB_QUIT := 22
  sizeof_int := 4
  sizeof_size_t := 8
  sizeof_SharedConfig := 8
  sizeof_string_length := 8
  decodeInt := fun bs =>
    if littleEndian bs % 2 ^ 32 < 2 ^ 31 then ((littleEndian bs % 2 ^ 32 : Nat) : Int)
    else ((littleEndian bs % 2 ^ 32 : Nat) : Int) - 2 ^ 32
  decodeSize := fun bs => littleEndian bs % 2 ^ 64
  sizeof_int_pos := by decide
  tags_distinct := by decide

/-- Example messages in the layout `exampleWire`: a configuration record, the library name
`a.so`, the dump file name `out`. -/
def exampleMessages : List Message :=
  [.config [10, 0, 0, 0] [1, 0, 0, 0, 2, 0, 0, 0],
   .libFile [12, 0, 0, 0] [4, 0, 0, 0, 0, 0, 0, 0] [97, 46, 115, 111],
   .dumpFile [11, 0, 0, 0] [3, 0, 0, 0, 0, 0, 0, 0] [111, 117, 116]]

/-- The example messages followed by a second configuration record and the library name
`b.so`. -/
def exampleMessagesTwice : List Message :=
  exampleMessages ++
    [.config [10, 0, 0, 0] [3, 0, 0, 0, 4, 0, 0, 0],
     .libFile [12, 0, 0, 0] [4, 0, 0, 0, 0, 0, 0, 0] [98, 46, 115, 111]]

/-- The variables of `init` when it starts, with the given bytes on the stream. -/
def InitState.start (incoming : List Byte) : InitState :=
  { incoming := incoming, shared_config := [], av_filename := none, libraries := [],
    effects := [] }

/-- Values used by `SDL_InitSubSystem` that are declared outside the sources, taken as
parameters: the subsystem masks of the SDL headers and the flags of `GameInfo`. -/
structure InitMasks where
  SDL_INIT_AUDIO : Nat
  SDL_INIT_VIDEO : Nat
  SDL_INIT_JOYSTICK : Nat
  SDL_INIT_GAMECONTROLLER : Nat
  /-- The flag `GameInfo::SDL1` -/
  SDL1 : Nat
  /-- The flag `GameInfo::SDL2` -/
  SDL2 : Nat
  /-- The flag `GameInfo::NO_SDL` -/
  NO_SDL : Nat

/-- The fields of `game_info` written by `SDL_InitSubSystem`. -/
structure GameInfo where
  audio : Nat
  video : Nat
  joystick : Nat
  tosend : Bool
  deriving DecidableEq, Repr

/-- The function pointers of `namespace orig`; `none` is `nullptr`. A real function is
represented by the value it returns for each flag set; for `SDL_Quit`, which takes and returns
nothing, only whether the pointer is set. -/
structure Orig where
  SDL_Init : Option (Nat → Int)
  SDL_InitSubSystem : Option (Nat → Int)
  SDL_Quit : Option Unit

/-- What the loaded SDL library offers: the major version reported by `get_sdlversion()` and,
for each symbol looked up, the real function or `none` when the library lacks it. -/
structure RealSDL where
  SDLver : Int
  SDL_Init : Option (Nat → Int)
  SDL_InitSubSystem : Option (Nat → Int)
  SDL_Quit : Option Unit

/-- The variables the intercepted initialisation and shutdown entry points work on. -/
structure LibState where
  orig : Orig
  game_info : GameInfo
  effects : List Effect

/-- Modelled from the spec: the macro `LINK_NAMESPACE_SDLX` of `hook.h` is not among the
sources. Resolving a symbol stores the real address in the pointer, or leaves the pointer null
when the symbol is missing; a pointer already resolved is kept. -/
def LINK_NAMESPACE_SDLX {α : Type} (pointer : Option α) (resolved : Option α) : Option α :=
  match pointer with
  | some f => some f
  | none => resolved

/-- The three statements of `SDL_InitSubSystem` that disable subsystems, on the `Uint32`
variable `flags`:
`flags &= 0xFFFFFFFF ^ SDL_INIT_JOYSTICK; flags &= 0xFFFFFFFF ^ SDL_INIT_GAMECONTROLLER; flags &= 0xFFFFFFFF ^ SDL_INIT_AUDIO;` -/
def maskFlags (c : InitMasks) (flags : Nat) : Nat :=
  let flags := (flags &&& (0xFFFFFFFF ^^^ c.SDL_INIT_JOYSTICK)) % 2 ^ 32
  let flags := (flags &&& (0xFFFFFFFF ^^^ c.SDL_INIT_GAMECONTROLLER)) % 2 ^ 32
  let flags := (flags &&& (0xFFFFFFFF ^^^ c.SDL_INIT_AUDIO)) % 2 ^ 32
  flags

/-- The statements of `SDL_InitSubSystem` that record the requested subsystems in `game_info`. -/
def recordSubsystems (c : InitMasks) (sdl_flag : Nat) (flags : Nat) (gi : GameInfo) : GameInfo :=
  let gi := if flags &&& c.SDL_INIT_AUDIO ≠ 0 then { gi with audio := gi.audio ||| sdl_flag } else gi
  let gi := if flags &&& c.SDL_INIT_VIDEO ≠ 0 then { gi with video := gi.video ||| sdl_flag } else gi
  let gi :=
    if flags &&& c.SDL_INIT_JOYSTICK ≠ 0 then { gi with joystick := gi.joystick ||| sdl_flag }
    else { gi with joystick := gi.joystick ||| c.NO_SDL }
  let gi :=
    if flags &&& c.SDL_INIT_GAMECONTROLLER ≠ 0 then { gi with joystick := gi.joystick ||| sdl_flag }
    else { gi with joystick := gi.joystick ||| c.NO_SDL }
  { gi with tosend := true }

/-- The C declaration `int SDL_InitSubSystem(Uint32 flags)`. The result is the returned value
and the state after the call, or `none` when the call goes through a null pointer. -/
def SDL_InitSubSystem (c : InitMasks) (real : RealSDL) (st : LibState) (flags : Nat) :
    Option (Int × LibState) :=
  let SDLver := real.SDLver
  let sdl_flag := if SDLver = 2 then c.SDL2 else (if SDLver = 1 then c.SDL1 else c.NO_SDL)
  let orig : Orig :=
    { st.orig with
      SDL_InitSubSystem := LINK_NAMESPACE_SDLX st.orig.SDL_InitSubSystem real.SDL_InitSubSystem
      SDL_Quit := LINK_NAMESPACE_SDLX st.orig.SDL_Quit real.SDL_Quit }
  let effects :=
    st.effects ++ [.linkSdlwindows, .linkSdlevents, .linkSdlthreads, .linkSdltimer, .setMainThread]
  let game_info := recordSubsystems c sdl_flag flags st.game_info
  let flags := maskFlags c flags
  match orig.SDL_InitSubSystem with
  | none => none
  | some f =>
    some (f flags,
      { orig := orig, game_info := game_info, effects := effects ++ [.realInitSubSystem flags] })

/-- The subsystem masks of the SDL 2 headers, with example values for the flags of `GameInfo`. -/
def sdl2Masks : InitMasks where
  SDL_INIT_AUDIO := 0x00000010
  SDL_INIT_VIDEO := 0x00000020
  SDL_INIT_JOYSTICK := 0x00000200
  SDL_INIT_GAMECONTROLLER := 0x00002000
  SDL1 := 1
  SDL2 := 2
  NO_SDL := 4

/-- An SDL 2 library for the examples: every symbol is found; the real initialisation functions
return 0 unless asked for a subsystem this runtime emulates, in which case they return -1. -/
def exampleSDL2 : RealSDL where
  SDLver := 2
  SDL_Init := some (fun flags => if flags &&& 0x2210 = 0 then 0 else -1)
  SDL_InitSubSystem := some (fun flags => if flags &&& 0x2210 = 0 then 0 else -1)
  SDL_Quit := some ()

/-- The variables of the entry points before any of them has run: null pointers, nothing
recorded. -/
def LibState.start : LibState :=
  { orig := { SDL_Init := none, SDL_InitSubSystem := none, SDL_Quit := none }
    game_info := { audio := 0, video := 0, joystick := 0, tosend := false }
    effects := [] }

/-- The C declaration `int SDL_Init(Uint32 flags)`. The result is the returned value and the
state after the call, or `none` when the call goes through a null pointer. -/
def SDL_Init (c : InitMasks) (real : RealSDL) (st : LibState) (flags : Nat) :
    Option (Int × LibState) :=
  let SDLver := real.SDLver
  let orig : Orig :=
    { st.orig with SDL_Init := LINK_NAMESPACE_SDLX st.orig.SDL_Init real.SDL_Init }
  if SDLver = 1 then
    match orig.SDL_Init with
    | none => none
    | some f => some (f flags, { st with orig := orig, effects := st.effects ++ [.realInit flags] })
  else if SDLver = 2 then
    SDL_InitSubSystem c real { st with orig := orig } flags
  else
    some (0, { st with orig := orig })

/-- The C declaration `void SDL_Quit()`. The result is the state after the call, or, as an
error, the state in which the call goes through a null pointer. -/
def SDL_Quit (w : Wire) (st : LibState) : Except LibState LibState :=
  let st1 : LibState := { st with effects := st.effects ++ [Effect.sendMessage w.MSGB_QUIT] }
  match st1.orig.SDL_Quit with
  | none => Except.error st1
  | some _ => Except.ok { st1 with effects := st1.effects ++ [Effect.realQuit] }

/-- A call of the game to one of the three intercepted entry points of `libTAS.cpp`. -/
inductive EntryCall where
  | sdlInit (flags : Nat)
  | sdlInitSubSystem (flags : Nat)
  | sdlQuit
  deriving DecidableEq, Repr

/-- Effect of one call on the variables of the entry points; `none` when the call goes through
a null pointer. -/
def EntryCall.apply (c : InitMasks) (w : Wire) (real : RealSDL) (st : LibState) :
    EntryCall → Option LibState
  | .sdlInit flags => (SDL_Init c real st flags).map Prod.snd
  | .sdlInitSubSystem flags => (SDL_InitSubSystem c real st flags).map Prod.snd
  | .sdlQuit =>
    match SDL_Quit w st with
    | .ok st2 => some st2
    | .error _ => none

/-- Effect of a sequence of calls, oldest first. -/
def runEntries (c : InitMasks) (w : Wire) (real : RealSDL) (st : LibState) :
    List EntryCall → Option LibState
  | [] => some st
  | e :: es =>
    match e.apply c w real st with
    | none => none
    | some st1 => runEntries c w real st1 es

/-- Whether every `SDL_Quit` of a sequence of calls comes after a run of the intercepted
`SDL_InitSubSystem`, the entry point that resolves `orig::SDL_Quit`: directly, or through
`SDL_Init` when the version is 2. The first argument tells whether one has run already. -/
def quitAfterLink (real : RealSDL) : Bool → List EntryCall → Bool
  | _, [] => true
  | linked, .sdlQuit :: es => linked && quitAfterLink real linked es
  | _, .sdlInitSubSystem _ :: es => quitAfterLink real true es
  | linked, .sdlInit _ :: es => quitAfterLink real (linked || decide (real.SDLver = 2)) es

/-- An SDL 1.2 library for the examples: every symbol is found; the real initialisation
functions return 0 unless asked for a subsystem this runtime emulates, in which case they
return -1. -/
def exampleSDL1 : RealSDL where
  SDLver := 1
  SDL_Init := some (fun flags => if flags &&& 0x2210 = 0 then 0 else -1)
  SDL_InitSubSystem := some (fun flags => if flags &&& 0x2210 = 0 then 0 else -1)
  SDL_Quit := some ()

/-- An SDL 2 library for the examples in which the symbol `SDL_InitSubSystem` is missing. -/
def exampleSDL2Missing : RealSDL where
  SDLver := 2
  SDL_Init := some (fun _ => 0)
  SDL_InitSubSystem := none
  SDL_Quit := some ()

/-! ## Properties of the game-controller entry points -/

/-- C1: `SDL_IsGameController(i)` is `SDL_TRUE` exactly when `0 <= i < tasflags.numControllers`,
and `SDL_FALSE` exactly otherwise. -/
theorem SDL_IsGameController_iff {nAxes : Nat} (s : State nAxes) (i : Int) :
    (SDL_IsGameController s i = true ↔ 0 ≤ i ∧ i < s.numControllers) ∧
    (SDL_IsGameController s i = false ↔ ¬ (0 ≤ i ∧ i < s.numControllers)) := by
  unfold SDL_IsGameController
  by_cases h : i ≥ 0 ∧ i < s.numControllers
  · simp [h]
  · simp [h]

/-- Reading a four-entry array at an index inside it. -/
theorem readSlot_inside {α : Type} (t : Fin 4 → α) (i : Int) (h : 0 ≤ i ∧ i < 4) :
    readSlot t i = some (t ⟨i.toNat, by omega⟩) := by
  unfold readSlot
  rw [dif_pos h]

/-- Reading at the integer value of a slot number. -/
theorem readSlot_fin {α : Type} (t : Fin 4 → α) (k : Fin 4) :
    readSlot t ((k : Nat) : Int) = some (t k) := by
  have hk := k.isLt
  rw [readSlot_inside t _ ⟨by omega, by omega⟩]
  simp

/-- Every integer inside the table is the value of a slot number. -/
theorem exists_fin_of_inside (i : Int) (h0 : 0 ≤ i) (h4 : i < 4) :
    ∃ k : Fin 4, i = ((k : Nat) : Int) :=
  ⟨⟨i.toNat, by omega⟩, by simp; omega⟩

/-- A successful write changes exactly the addressed entry. -/
theorem writeSlot_eq {α : Type} (t u : Fin 4 → α) (i : Int) (v : α)
    (h : writeSlot t i v = some u) :
    ∃ k : Fin 4, i = ((k : Nat) : Int) ∧ u = Function.update t k v := by
  unfold writeSlot at h
  split at h
  · rename_i hi
    refine ⟨⟨i.toNat, by omega⟩, by simp; omega, ?_⟩
    simpa using h.symm
  · simp at h

/-- Writing at the integer value of a slot number succeeds. -/
theorem writeSlot_fin {α : Type} (t : Fin 4 → α) (k : Fin 4) (v : α) :
    writeSlot t ((k : Nat) : Int) v = some (Function.update t k v) := by
  have hk := k.isLt
  unfold writeSlot
  rw [dif_pos ⟨by omega, by omega⟩]
  simp

/-- One event other than a close of slot `k` keeps `joyid[k] = k`. -/
theorem Call.apply_keeps_open {nAxes : Nat} (k : Fin 4) (c : Call nAxes) (s s1 : State nAxes)
    (hc : c.isCloseOf ((k : Nat) : Int) = false) (h : c.apply s = some s1)
    (hj : s.joyid k = ((k : Nat) : Int)) : s1.joyid k = ((k : Nat) : Int) := by
  cases c with
  | gcOpen i =>
    simp only [Call.apply, SDL_GameControllerOpen] at h
    cases hw : writeSlot s.joyid i i with
    | none => simp [hw] at h
    | some u =>
      simp [hw] at h
      obtain ⟨m, hm, hu⟩ := writeSlot_eq _ _ _ _ hw
      subst h
      simp only [hu]
      by_cases hmk : k = m
      · subst hmk
        simp [hm]
      · rw [Function.update_noteq hmk]
        exact hj
  | gcClose gc =>
    simp only [Call.isCloseOf, decide_eq_false_iff_not] at hc
    simp only [Call.apply, SDL_GameControllerClose] at h
    cases hw : writeSlot s.joyid gc (-1) with
    | none => simp [hw] at h
    | some u =>
      simp [hw] at h
      obtain ⟨m, hm, hu⟩ := writeSlot_eq _ _ _ _ hw
      subst h
      simp only [hu]
      have hmk : k ≠ m := by
        intro e
        subst e
        exact hc hm
      rw [Function.update_noteq hmk]
      exact hj
  | inputs ai =>
    simp only [Call.apply, setInputs, Option.some.injEq] at h
    subst h
    exact hj

/-- A sequence of events without a close of slot `k` keeps `joyid[k] = k`. -/
theorem run_keeps_open {nAxes : Nat} (k : Fin 4) (cs : List (Call nAxes)) :
    ∀ (s s2 : State nAxes), (∀ c ∈ cs, c.isCloseOf ((k : Nat) : Int) = false) →
      run s cs = some s2 → s.joyid k = ((k : Nat) : Int) → s2.joyid k = ((k : Nat) : Int) := by
  induction cs with
  | nil =>
    intro s s2 _ h hj
    simp only [run, Option.some.injEq] at h
    subst h
    exact hj
  | cons c cs ih =>
    intro s s2 hc h hj
    simp only [run] at h
    cases ha : c.apply s with
    | none => simp [ha] at h
    | some s1 =>
      simp only [ha] at h
      exact ih s1 s2 (fun d hd => hc d (List.mem_cons_of_mem _ hd)) h
        (Call.apply_keeps_open k c s s1 (hc c (List.mem_cons_self _ _)) ha hj)

/-- The decoded bit: shifting right by `b`, masking with `0x1` and truncating to `Uint8`
yields bit `b` of the bitmask. -/
theorem shift_mask_eq_testBit (m b : Nat) :
    ((m >>> b) &&& 0x1) % 256 = if m.testBit b then 1 else 0 := by
  have h1 : (m >>> b) &&& 1 = (m >>> b) % 2 := Nat.and_one_is_mod _
  have h2 : m.testBit b = decide ((m >>> b) % 2 = 1) := by
    rw [Nat.testBit_to_div_mod, Nat.shiftRight_eq_div_pow]
  rw [h1, h2]
  rcases Nat.mod_two_eq_zero_or_one (m >>> b) with h | h <;> simp [h]

/-- A successful `SDL_GameControllerOpen(i)` returns a handle holding `i`, with `i` inside
`joyid[4]`, and sets `joyid[i] = i`. -/
theorem SDL_GameControllerOpen_some {nAxes : Nat} (s s1 : State nAxes) (i gc : Int)
    (h : SDL_GameControllerOpen s i = some (gc, s1)) :
    ∃ k : Fin 4, i = ((k : Nat) : Int) ∧ gc = i ∧ s1.joyid k = i ∧ s1.ai = s.ai := by
  unfold SDL_GameControllerOpen at h
  cases hw : writeSlot s.joyid i i with
  | none => simp [hw] at h
  | some u =>
    simp only [hw, Option.some.injEq, Prod.mk.injEq] at h
    obtain ⟨k, hk, hu⟩ := writeSlot_eq _ _ _ _ hw
    obtain ⟨h1, h2⟩ := h
    subst h2
    exact ⟨k, hk, h1.symm, by simp [hu], rfl⟩

/-- C2: button decode. For a controller index `i` that was opened (the open returned the handle
`gc`) and not closed since, whatever other opens, closes and input updates happened meanwhile, and
for the bitmask `M` stored for slot `i`, `SDL_GameControllerGetButton` on the handle returns
exactly bit `b` of `M` (1 if set, 0 if clear) for every button `0 <= b < SDL_CONTROLLER_BUTTON_MAX`. -/
theorem SDL_GameControllerGetButton_decodes {nAxes : Nat} (BUTTON_MAX : Int)
    (s s1 s2 : State nAxes) (i gc : Int) (cs : List (Call nAxes)) (M : Nat) (b : Int)
    (hopen : SDL_GameControllerOpen s i = some (gc, s1))
    (hrun : run s1 cs = some s2)
    (hnc : ∀ c ∈ cs, c.isCloseOf i = false)
    (hM : readSlot s2.ai.controller_buttons i = some M)
    (hb0 : 0 ≤ b) (hb : b < BUTTON_MAX) :
    SDL_GameControllerGetButton BUTTON_MAX s2 gc b = some (if M.testBit b.toNat then 1 else 0) := by
  obtain ⟨k, hk, hgc, hj, _⟩ := SDL_GameControllerOpen_some s s1 i gc hopen
  subst hgc
  subst hk
  have hj2 := run_keeps_open k cs s1 s2 hnc hrun hj
  have hk4 := k.isLt
  have hne : ¬ ((k : Nat) : Int) = -1 := by omega
  have hsel : ¬ (b < 0 ∨ b ≥ BUTTON_MAX) := by omega
  unfold SDL_GameControllerGetButton
  rw [readSlot_fin, hj2]
  simp only [hne, hsel, if_false]
  rw [hM]
  simp only [shift_mask_eq_testBit]

/-- Witness of C2 on the example of the claim: index 0 opened, index 1 opened, the bitmask
`0b0110` stored for every slot; button 1 reads 1 and button 3 reads 0. -/
theorem SDL_GameControllerGetButton_decodes_witness :
    SDL_GameControllerGetButton 15
      (stateAfter (stateAfter twoControllers [.gcOpen 0])
        [.gcOpen 1, .inputs (AllInputs.const 6 0 0b0110)]) 0 1 = some 1 ∧
    SDL_GameControllerGetButton 15
      (stateAfter (stateAfter twoControllers [.gcOpen 0])
        [.gcOpen 1, .inputs (AllInputs.const 6 0 0b0110)]) 0 3 = some 0 :=
  ⟨SDL_GameControllerGetButton_decodes 15 twoControllers
      (stateAfter twoControllers [.gcOpen 0]) _ 0 0
      [.gcOpen 1, .inputs (AllInputs.const 6 0 0b0110)] 0b0110 1
      rfl rfl (by simp [Call.isCloseOf]) rfl (by decide) (by decide),
   SDL_GameControllerGetButton_decodes 15 twoControllers
      (stateAfter twoControllers [.gcOpen 0]) _ 0 0
      [.gcOpen 1, .inputs (AllInputs.const 6 0 0b0110)] 0b0110 3
      rfl rfl (by simp [Call.isCloseOf]) rfl (by decide) (by decide)⟩

/-- C3: neutral value for an invalid selector. For a handle `gc` to a controller index `i`
(a handle returned by `SDL_GameControllerOpen(i)` at some earlier time), in every later state,
whatever the attachment state of the slot, the configured count and the stored inputs,
`SDL_GameControllerGetAxis` returns 0 for every axis `a < 0` or `a >= SDL_CONTROLLER_AXIS_MAX`
and `SDL_GameControllerGetButton` returns 0 for every button `b < 0` or
`b >= SDL_CONTROLLER_BUTTON_MAX`. -/
theorem invalid_selector_is_neutral {nAxes : Nat} (BUTTON_MAX : Int)
    (s0 s1 s : State nAxes) (i gc : Int)
    (hopen : SDL_GameControllerOpen s0 i = some (gc, s1)) :
    (∀ a : Int, a < 0 ∨ a ≥ SDL_CONTROLLER_AXIS_MAX nAxes →
      SDL_GameControllerGetAxis s gc a = some 0) ∧
    (∀ b : Int, b < 0 ∨ b ≥ BUTTON_MAX →
      SDL_GameControllerGetButton BUTTON_MAX s gc b = some 0) := by
  obtain ⟨k, hk, hgc, _, _⟩ := SDL_GameControllerOpen_some s0 s1 i gc hopen
  subst hgc
  subst hk
  constructor
  · intro a ha
    unfold SDL_GameControllerGetAxis
    rw [readSlot_fin]
    simp only [ha, if_true]
    split <;> rfl
  · intro b hb
    unfold SDL_GameControllerGetButton
    rw [readSlot_fin]
    simp only [hb, if_true]
    split <;> rfl

/-- Witness of C3: the handle to index 1 of two configured controllers, while attached and with
all low buttons pressed and every axis at 7: axis 6, axis -1, button 15 and button -1 read 0. -/
theorem invalid_selector_is_neutral_witness :
    (∀ a : Int, a < 0 ∨ a ≥ SDL_CONTROLLER_AXIS_MAX 6 →
      SDL_GameControllerGetAxis
        (stateAfter twoControllers [.gcOpen 1, .inputs (AllInputs.const 6 7 0xFF)]) 1 a = some 0) ∧
    (∀ b : Int, b < 0 ∨ b ≥ 15 →
      SDL_GameControllerGetButton 15
        (stateAfter twoControllers [.gcOpen 1, .inputs (AllInputs.const 6 7 0xFF)]) 1 b = some 0) :=
  invalid_selector_is_neutral 15 twoControllers (stateAfter twoControllers [.gcOpen 1])
    (stateAfter twoControllers [.gcOpen 1, .inputs (AllInputs.const 6 7 0xFF)]) 1 1 rfl

/-- C7, the code at the failing input: with one controller configured, index 1 is not a game
controller and its slot is detached, yet `SDL_GameControllerOpen(1)` returns a handle holding 1
and leaves slot 1 attached. -/
theorem SDL_GameControllerOpen_beyond_count :
    SDL_IsGameController oneController 1 = false ∧
    SDL_GameControllerGetAttached oneController 1 = some false ∧
    (SDL_GameControllerOpen oneController 1).map Prod.fst = some 1 ∧
    (SDL_GameControllerOpen oneController 1).map
      (fun r => SDL_GameControllerGetAttached r.2 1) = some (some true) := by
  decide

/-- C8, the code at the failing input: with one controller configured and index 1 opened, the
queries on the handle to index 1 (outside the configured range) return the stored inputs of
slot 1, axis value 7 and button bit 1, instead of 0. -/
theorem query_beyond_count_not_neutral :
    SDL_IsGameController oneController 1 = false ∧
    (run oneController [.gcOpen 1]).isSome = true ∧
    SDL_GameControllerGetAxis (stateAfter oneController [.gcOpen 1]) 1 0 = some 7 ∧
    SDL_GameControllerGetButton 15 (stateAfter oneController [.gcOpen 1]) 1 0 = some 1 := by
  decide

/-- C9: close clears only the attachment flag. For every state `s` and every handle `gc` to an
index `i` (returned by an earlier `SDL_GameControllerOpen(i)`), `SDL_GameControllerClose(gc)`
succeeds; afterwards `SDL_GameControllerGetAttached` for `i` is false, the attachment state and
the `joyid` entry of every other index are unchanged, and the stored axis values and button
bitmasks of all slots, the configured count and the event mode are unchanged. -/
theorem SDL_GameControllerClose_frame {nAxes : Nat} (s0 s1 s : State nAxes) (i gc : Int)
    (hopen : SDL_GameControllerOpen s0 i = some (gc, s1)) :
    ∃ s2 : State nAxes, SDL_GameControllerClose s gc = some s2 ∧
      SDL_GameControllerGetAttached s2 i = some false ∧
      (∀ j : Int, j ≠ i → SDL_GameControllerGetAttached s2 j = SDL_GameControllerGetAttached s j) ∧
      (∀ k : Fin 4, ((k : Nat) : Int) ≠ i → s2.joyid k = s.joyid k) ∧
      s2.ai = s.ai ∧ s2.numControllers = s.numControllers ∧
      s2.sdl_controller_events = s.sdl_controller_events := by
  obtain ⟨k, hk, hgc, _, _⟩ := SDL_GameControllerOpen_some s0 s1 i gc hopen
  subst hgc
  subst hk
  refine ⟨{ s with joyid := Function.update s.joyid k (-1) }, ?_, ?_, ?_, ?_, rfl, rfl, rfl⟩
  · unfold SDL_GameControllerClose
    rw [writeSlot_fin]
  · unfold SDL_GameControllerGetAttached
    rw [readSlot_fin]
    simp
  · intro j hj
    unfold SDL_GameControllerGetAttached
    by_cases hin : 0 ≤ j ∧ j < 4
    · obtain ⟨m, hm⟩ := exists_fin_of_inside j hin.1 hin.2
      subst hm
      have hmk : m ≠ k := by
        intro e
        subst e
        exact hj rfl
      rw [readSlot_fin, readSlot_fin]
      simp only [Function.update_noteq hmk]
    · unfold readSlot
      rw [dif_neg hin, dif_neg hin]
  · intro m hm
    have hmk : m ≠ k := by
      intro e
      subst e
      exact hm rfl
    simp only [Function.update_noteq hmk]

/-- Witness of C9 on the example of the claim: with indices 0 and 1 open, closing the handle
to 0 leaves attached(0) false and attached(1) true. -/
theorem SDL_GameControllerClose_frame_witness :
    ∃ s2 : State 6,
      SDL_GameControllerClose (stateAfter twoControllers [.gcOpen 0, .gcOpen 1]) 0 = some s2 ∧
      SDL_GameControllerGetAttached s2 0 = some false ∧
      SDL_GameControllerGetAttached s2 1 = some true := by
  obtain ⟨s2, h1, h2, h3, _⟩ := SDL_GameControllerClose_frame twoControllers
    (stateAfter twoControllers [.gcOpen 0])
    (stateAfter twoControllers [.gcOpen 0, .gcOpen 1]) 0 0 rfl
  exact ⟨s2, h1, h2, by rw [h3 1 (by decide)]; decide⟩

/-- The index test of `SDL_IsGameController`, as a range. -/
theorem SDL_IsGameController_in_range {nAxes : Nat} (s : State nAxes) (i : Int) :
    SDL_IsGameController s i = true ↔ 0 ≤ i ∧ i < s.numControllers := by
  unfold SDL_IsGameController
  by_cases h : i ≥ 0 ∧ i < s.numControllers <;> simp [h]


/-- Storing new inputs any number of times leaves `joyid`, hence attachment, unchanged. -/
theorem foldl_setInputs_joyid {nAxes : Nat} (ais : List (AllInputs nAxes)) :
    ∀ s : State nAxes, (ais.foldl setInputs s).joyid = s.joyid := by
  induction ais with
  | nil => intro s; rfl
  | cons a as ih => intro s; rw [List.foldl_cons, ih]; rfl

/-- C10, counterexample: attachment depends on the open/close history and on nothing else.
With two controllers configured and the same inputs stored (every slot with buttons pressed and
axes deflected), `SDL_GameControllerGetAttached` on index 0 is false when index 0 was never
opened and true when it was; no stored inputs make it true without an open, and after open and
close of index 0 no stored inputs make it true again. -/
theorem attachment_not_set_by_inputs :
    SDL_GameControllerGetAttached
      (stateAfter twoControllers [.inputs (AllInputs.const 6 7 0xFF)]) 0 = some false ∧
    SDL_GameControllerGetAttached
      (stateAfter twoControllers [.gcOpen 0, .inputs (AllInputs.const 6 7 0xFF)]) 0 = some true ∧
    (¬ ∃ ai : AllInputs 6,
      SDL_GameControllerGetAttached (stateAfter twoControllers [.inputs ai]) 0 = some true) ∧
    (¬ ∃ ai : AllInputs 6,
      SDL_GameControllerGetAttached
        (stateAfter twoControllers [.gcOpen 0, .gcClose 0, .inputs ai]) 0 = some true) := by
  refine ⟨by decide, by decide, ?_, ?_⟩
  · rintro ⟨ai, h⟩
    have h2 : SDL_GameControllerGetAttached twoControllers 0 = some true := h
    exact absurd h2 (by decide)
  · rintro ⟨ai, h⟩
    have h2 : SDL_GameControllerGetAttached
        (stateAfter twoControllers [.gcOpen 0, .gcClose 0]) 0 = some true := h
    exact absurd h2 (by decide)

/-- C10 as amended: attachment follows the open/close history alone. For every valid index `i`
(`SDL_IsGameController(i)` is true) and handle `gc` to `i` returned by
`SDL_GameControllerOpen(i)`: the handle holds `i`, which lies within the configured count and
within `joyid[4]`; in every state `SDL_GameControllerGetAttached` on the handle is true exactly
when `joyid[i] != -1`; input updates (new axis values and button bitmasks in `ai`)
never change it; it is true after the open, also across later input updates; in the initial
state, where `i` was never opened, it is false whatever inputs are stored; after
`SDL_GameControllerClose` on the handle it is false and stays false across later input updates,
and a new `SDL_GameControllerOpen(i)` makes it true again. -/
theorem attachment_follows_open_close {nAxes : Nat} (s0 s1 : State nAxes) (i gc : Int)
    (hvalid : SDL_IsGameController s0 i = true)
    (hopen : SDL_GameControllerOpen s0 i = some (gc, s1)) :
    (gc = i ∧ 0 ≤ i ∧ i < s0.numControllers ∧ i < 4) ∧
    (∀ s : State nAxes, ∃ j : Int, readSlot s.joyid i = some j ∧
      SDL_GameControllerGetAttached s gc = some (decide (j ≠ -1))) ∧
    (∀ (s : State nAxes) (ais : List (AllInputs nAxes)),
      SDL_GameControllerGetAttached (ais.foldl setInputs s) gc =
        SDL_GameControllerGetAttached s gc) ∧
    (∀ ais : List (AllInputs nAxes),
      SDL_GameControllerGetAttached (ais.foldl setInputs s1) gc = some true) ∧
    (∀ (N : Int) (ai : AllInputs nAxes) (ais : List (AllInputs nAxes)),
      SDL_GameControllerGetAttached (ais.foldl setInputs (State.initial N ai)) gc
        = some false) ∧
    (∀ s : State nAxes, ∃ s2 : State nAxes, SDL_GameControllerClose s gc = some s2 ∧
      (∀ ais : List (AllInputs nAxes),
        SDL_GameControllerGetAttached (ais.foldl setInputs s2) gc = some false) ∧
      ∃ s3 : State nAxes, SDL_GameControllerOpen s2 i = some (gc, s3) ∧
        SDL_GameControllerGetAttached s3 gc = some true) := by
  have hrange := (SDL_IsGameController_in_range s0 i).mp hvalid
  obtain ⟨k, hk, hgc, hj, _⟩ := SDL_GameControllerOpen_some s0 s1 i gc hopen
  subst hgc
  subst hk
  have hk4 := k.isLt
  have hne : ((k : Nat) : Int) ≠ -1 := by omega
  have hupd : ∀ (s : State nAxes) (ais : List (AllInputs nAxes)),
      SDL_GameControllerGetAttached (ais.foldl setInputs s) ((k : Nat) : Int) =
        SDL_GameControllerGetAttached s ((k : Nat) : Int) := by
    intro s ais
    unfold SDL_GameControllerGetAttached
    rw [foldl_setInputs_joyid]
  refine ⟨⟨rfl, hrange.1, hrange.2, by omega⟩, ?_, hupd, ?_, ?_, ?_⟩
  · intro s
    refine ⟨s.joyid k, readSlot_fin _ k, ?_⟩
    unfold SDL_GameControllerGetAttached
    rw [readSlot_fin]
    by_cases h : s.joyid k = -1 <;> simp [h]
  · intro ais
    rw [hupd]
    unfold SDL_GameControllerGetAttached
    rw [readSlot_fin, hj]
    simp [hne]
  · intro N ai ais
    rw [hupd]
    unfold SDL_GameControllerGetAttached
    rw [readSlot_fin]
    simp [State.initial]
  · intro s
    refine ⟨{ s with joyid := Function.update s.joyid k (-1) }, ?_, ?_,
      { s with joyid := Function.update (Function.update s.joyid k (-1)) k ((k : Nat) : Int) },
      ?_, ?_⟩
    · unfold SDL_GameControllerClose
      rw [writeSlot_fin]
    · intro ais
      rw [hupd]
      unfold SDL_GameControllerGetAttached
      rw [readSlot_fin]
      simp
    · unfold SDL_GameControllerOpen
      rw [writeSlot_fin]
    · unfold SDL_GameControllerGetAttached
      rw [readSlot_fin]
      simp [hne]

/-- Witness of the amended C10 at index 0 of two configured controllers: attached after the
open and across an input update, detached in the initial state with the same inputs stored,
detached after the close and across the input update. -/
theorem attachment_follows_open_close_witness :
    SDL_GameControllerGetAttached
      ([AllInputs.const 6 7 0xFF].foldl setInputs (stateAfter twoControllers [.gcOpen 0])) 0
      = some true ∧
    SDL_GameControllerGetAttached
      ([AllInputs.const 6 7 0xFF].foldl setInputs (State.initial 2 (AllInputs.empty 6))) 0
      = some false ∧
    ∃ s2 : State 6,
      SDL_GameControllerClose (stateAfter twoControllers [.gcOpen 0]) 0 = some s2 ∧
      SDL_GameControllerGetAttached ([AllInputs.const 6 7 0xFF].foldl setInputs s2) 0
        = some false := by
  obtain ⟨_, _, _, h3, h4, h5⟩ := attachment_follows_open_close twoControllers
    (stateAfter twoControllers [.gcOpen 0]) 0 0 (by decide) rfl
  obtain ⟨s2, e, hf, _⟩ := h5 (stateAfter twoControllers [.gcOpen 0])
  exact ⟨h3 _, h4 2 (AllInputs.empty 6) _, s2, e, hf _⟩

/-! ## Properties of the start-up handshake -/

/-- Receiving as many bytes as a block at the head of the stream holds yields that block. -/
theorem receiveData_append (xs ys : List Byte) (n : Nat) (h : xs.length = n) :
    receiveData n (xs ++ ys) = some (xs, ys) := by
  subst h
  unfold receiveData
  simp

/-- The distinctness of the recognised tags, pair by pair. -/
theorem Wire.tags_ne (w : Wire) :
    w.MSGN_CONFIG ≠ w.MSGN_DUMP_FILE ∧ w.MSGN_CONFIG ≠ w.MSGN_LIB_FILE ∧
    w.MSGN_CONFIG ≠ w.MSGN_END_INIT ∧ w.MSGN_DUMP_FILE ≠ w.MSGN_LIB_FILE ∧
    w.MSGN_DUMP_FILE ≠ w.MSGN_END_INIT ∧ w.MSGN_LIB_FILE ≠ w.MSGN_END_INIT := by
  have h := w.tags_distinct
  simp only [List.nodup_cons, List.mem_cons, List.mem_singleton, not_or, List.not_mem_nil,
    not_false_eq_true, List.nodup_nil, and_true] at h
  obtain ⟨⟨h1, h2, h3⟩, ⟨h4, h5⟩, h6⟩ := h
  exact ⟨h1, h2, h3, h4, h5, h6⟩

/-- One round of the loop on a well-formed message: the message is consumed, its content
stored, and the loop goes on with the rest of the stream. -/
theorem recvLoop_message (w : Wire) (fuel : Nat) (m : Message) (tail : List Byte)
    (st : InitState) (hm : m.wellFormed w) (hst : st.incoming = m.bytes ++ tail) :
    recvLoop w (fuel + 1) st = recvLoop w fuel { m.store st with incoming := tail } := by
  obtain ⟨h1, h2, h3, h4, h5, h6⟩ := w.tags_ne
  cases m with
  | config tag record =>
    obtain ⟨ht, hv, hr⟩ := hm
    simp only [Message.bytes, List.append_assoc] at hst
    simp only [recvLoop, whileLoop, hst, receiveData_append tag _ _ ht, hv, ne_eq, h3,
      not_false_eq_true, if_true, if_false, handleMessage,
      if_true, receiveData_append record _ _ hr, Message.store]
  | dumpFile tag size name =>
    obtain ⟨ht, hv, hs, hn⟩ := hm
    simp only [Message.bytes, List.append_assoc] at hst
    simp only [recvLoop, whileLoop, hst, receiveData_append tag _ _ ht, hv, ne_eq, h5, h1.symm,
      not_false_eq_true, if_true, if_false,
      handleMessage, if_true, receiveData_append size _ _ hs,
      receiveData_append name _ _ hn.symm, Message.store]
  | libFile tag length str =>
    obtain ⟨ht, hv, hs, hn⟩ := hm
    simp only [Message.bytes, List.append_assoc] at hst
    simp only [recvLoop, whileLoop, hst, receiveData_append tag _ _ ht, hv, ne_eq, h6, h2.symm,
      h4.symm, not_false_eq_true, if_true, if_false,
      handleMessage, if_true, receiveString, receiveData_append length _ _ hs,
      receiveData_append str _ _ hn.symm, Message.store, add_lib]

/-- The variables of `init` after a sequence of messages, each stored in turn. -/
theorem foldl_store_effects (ms : List Message) :
    ∀ st : InitState, (ms.foldl Message.store st).effects = st.effects := by
  induction ms with
  | nil => intro st; rfl
  | cons m ms ih =>
    intro st
    rw [List.foldl_cons, ih]
    cases m <;> rfl

/-- Storing messages does not look at the stream. -/
theorem foldl_store_incoming (ms : List Message) :
    ∀ (st : InitState) (x : List Byte),
      ms.foldl Message.store { st with incoming := x } =
        { ms.foldl Message.store st with incoming := x } := by
  induction ms with
  | nil => intro st x; rfl
  | cons m ms ih =>
    intro st x
    simp only [List.foldl_cons]
    rw [← ih]
    congr 1
    cases m <;> rfl

/-- The loop on a sequence of well-formed messages: one round each, all consumed and stored in
the order received. -/
theorem recvLoop_messages (w : Wire) (ms : List Message) :
    ∀ (fuel : Nat) (tail : List Byte) (st : InitState), (∀ m ∈ ms, m.wellFormed w) →
      st.incoming = streamOf ms ++ tail →
      recvLoop w (fuel + ms.length) st =
        recvLoop w fuel { ms.foldl Message.store st with incoming := tail } := by
  induction ms with
  | nil =>
    intro fuel tail st _ hst
    simp only [streamOf, List.nil_append] at hst
    simp only [List.length_nil, Nat.add_zero, List.foldl_nil]
    rw [← hst]
  | cons m ms ih =>
    intro fuel tail st hwf hst
    simp only [streamOf, List.append_assoc] at hst
    rw [List.length_cons, ← Nat.add_assoc,
      recvLoop_message w (fuel + ms.length) m (streamOf ms ++ tail) st
        (hwf m (List.mem_cons_self _ _)) hst,
      ih fuel tail _ (fun x hx => hwf x (List.mem_cons_of_mem _ hx)) rfl]
    simp only [List.foldl_cons]
    rw [foldl_store_incoming]

/-- A well-formed message occupies at least one byte. -/
theorem Message.bytes_pos (w : Wire) (m : Message) (hm : m.wellFormed w) :
    1 ≤ m.bytes.length := by
  have hp := w.sizeof_int_pos
  cases m <;> obtain ⟨ht, _⟩ := hm <;> simp only [Message.bytes, List.length_append] <;> omega

/-- A sequence of well-formed messages occupies at least as many bytes as it has messages. -/
theorem streamOf_length (w : Wire) (ms : List Message) (hwf : ∀ m ∈ ms, m.wellFormed w) :
    ms.length ≤ (streamOf ms).length := by
  induction ms with
  | nil => simp
  | cons m ms ih =>
    have h1 := Message.bytes_pos w m (hwf m (List.mem_cons_self _ _))
    have h2 := ih (fun x hx => hwf x (List.mem_cons_of_mem _ hx))
    simp only [streamOf, List.length_append, List.length_cons]
    omega

/-- The round that receives the end-of-configuration tag ends the loop, having consumed
exactly that tag. -/
theorem recvLoop_end (w : Wire) (fuel : Nat) (tag rest : List Byte) (st : InitState)
    (hlen : tag.length = w.sizeof_int) (hend : w.decodeInt tag = w.MSGN_END_INIT)
    (hst : st.incoming = tag ++ rest) :
    recvLoop w (fuel + 1) st = .returned { st with incoming := rest } := by
  simp only [recvLoop, whileLoop, hst, receiveData_append tag _ _ hlen, hend, ne_eq,
    not_true_eq_false, if_false]

/-- The round that receives a tag outside the recognised ones calls `exit(1)`, having consumed
exactly that tag. -/
theorem recvLoop_unknown (w : Wire) (fuel : Nat) (tag rest : List Byte) (st : InitState)
    (hlen : tag.length = w.sizeof_int) (hbad : ¬ w.recognised (w.decodeInt tag))
    (hst : st.incoming = tag ++ rest) :
    recvLoop w (fuel + 1) st = .exited 1 { st with incoming := rest } := by
  simp only [Wire.recognised, not_or] at hbad
  obtain ⟨h1, h2, h3, h4⟩ := hbad
  simp only [recvLoop, whileLoop, hst, receiveData_append tag _ _ hlen, ne_eq, h4,
    not_false_eq_true, if_true, if_false, handleMessage, h1, h2, h3]

/-- The receive loop as started by `init`, on a stream that begins with a sequence of
well-formed messages: the bound on the rounds leaves at least one round after them. -/
theorem recvLoop_from_init (w : Wire) (ms : List Message) (tail : List Byte) (st : InitState)
    (hwf : ∀ m ∈ ms, m.wellFormed w) (hst : st.incoming = streamOf ms ++ tail) :
    recvLoop w (st.incoming.length + 1) st =
      recvLoop w (st.incoming.length - ms.length + 1)
        { ms.foldl Message.store st with incoming := tail } := by
  have hlen := streamOf_length w ms hwf
  have hle : ms.length ≤ st.incoming.length := by
    rw [hst, List.length_append]
    omega
  have hfuel : st.incoming.length + 1 = (st.incoming.length - ms.length + 1) + ms.length := by
    omega
  conv_lhs => rw [hfuel]
  exact recvLoop_messages w ms _ tail st hwf hst

/-- C6: handshake completion. For every finite sequence `ms` (the empty one included) of
well-formed configuration, dump-target and auxiliary-library messages followed by an
end-of-configuration tag, whatever follows on the stream: `init` does not exit and is not left
waiting, its receive loop has consumed exactly the messages and that tag (what follows the tag
is still on the stream), and `init` has gone on to the Ready-state initialisation and returned:
after its three sends its effects are, in this order, `ai.emptyInputs()`,
`old_ai.emptyInputs()`, `game_ai.emptyInputs()`, `nonDetTimer.initialize()`,
`detTimer.initialize()`, `audiocontext.init()` and `ThreadManager::init()`. -/
theorem init_handshake_completes (w : Wire) (mypid : Int) (st : InitState) (ms : List Message)
    (endTag rest : List Byte) (hwf : ∀ m ∈ ms, m.wellFormed w)
    (hlen : endTag.length = w.sizeof_int) (hend : w.decodeInt endTag = w.MSGN_END_INIT)
    (hst : st.incoming = streamOf ms ++ (endTag ++ rest)) :
    ∃ st2 : InitState, init w true mypid st = .returned st2 ∧ st2.incoming = rest ∧
      st2.effects = st.effects ++
        [.sendMessage w.MSGB_PID, .sendPid mypid, .sendMessage w.MSGB_END_INIT] ++
        [.aiEmptyInputs, .oldAiEmptyInputs, .gameAiEmptyInputs, .nonDetTimerInitialized,
         .detTimerInitialized, .audiocontextInit, .threadManagerInit] := by
  refine ⟨{ ms.foldl Message.store
              { st with effects := st.effects ++ handshakeSends w mypid } with
            incoming := rest
            effects := st.effects ++ handshakeSends w mypid ++ postHandshake }, ?_, rfl, rfl⟩
  have h1 := recvLoop_from_init w ms (endTag ++ rest)
    { st with effects := st.effects ++ handshakeSends w mypid } hwf hst
  have h2 := recvLoop_end w (st.incoming.length - ms.length) endTag rest
    { ms.foldl Message.store { st with effects := st.effects ++ handshakeSends w mypid } with
      incoming := endTag ++ rest } hlen hend rfl
  simp only [init, Bool.not_true, Bool.false_eq_true, if_false]
  rw [h1, h2]
  simp only [foldl_store_effects]

/-- C5: handshake fatal path. For every stream in which a tag outside the recognised ones
(configuration, dump-target, auxiliary-library, end-of-configuration) is received before any
end-of-configuration tag, that is after a sequence `ms` of complete messages of the first three
kinds: `init` calls `exit(1)` at that tag, nothing after the tag has been consumed (what follows
the tag is still on the stream), and the effects of `init` are its three sends alone: the
initialisation of inputs, timers, audio and thread manager is not reached. -/
theorem init_unknown_tag_exits (w : Wire) (mypid : Int) (st : InitState) (ms : List Message)
    (badTag rest : List Byte) (hwf : ∀ m ∈ ms, m.wellFormed w)
    (hlen : badTag.length = w.sizeof_int) (hbad : ¬ w.recognised (w.decodeInt badTag))
    (hst : st.incoming = streamOf ms ++ (badTag ++ rest)) :
    ∃ st2 : InitState, init w true mypid st = .exited 1 st2 ∧ st2.incoming = rest ∧
      st2.effects = st.effects ++ handshakeSends w mypid ∧
      ∀ e ∈ postHandshake, e ∉ handshakeSends w mypid := by
  refine ⟨{ ms.foldl Message.store
              { st with effects := st.effects ++ handshakeSends w mypid } with
            incoming := rest }, ?_, rfl, ?_, ?_⟩
  · have h1 := recvLoop_from_init w ms (badTag ++ rest)
      { st with effects := st.effects ++ handshakeSends w mypid } hwf hst
    have h2 := recvLoop_unknown w (st.incoming.length - ms.length) badTag rest
      { ms.foldl Message.store { st with effects := st.effects ++ handshakeSends w mypid } with
        incoming := badTag ++ rest } hlen hbad rfl
    simp only [init, Bool.not_true, Bool.false_eq_true, if_false]
    rw [h1, h2]
  · simp only [foldl_store_effects]
  · intro e he
    simp only [postHandshake, List.mem_cons, List.mem_singleton, List.not_mem_nil, or_false] at he
    simp only [handshakeSends, List.mem_cons, List.mem_singleton, List.not_mem_nil, or_false]
    rcases he with h | h | h | h | h | h | h <;> subst h <;> simp

/-- A successful receive of `n` bytes shortens the stream by `n`. -/
theorem receiveData_length (n : Nat) (incoming bytes rest : List Byte)
    (h : receiveData n incoming = some (bytes, rest)) : rest.length + n = incoming.length := by
  unfold receiveData at h
  split at h
  · simp only [Option.some.injEq, Prod.mk.injEq] at h
    obtain ⟨_, h2⟩ := h
    subst h2
    rw [List.length_drop]
    omega
  · simp at h

/-- The body of the switch never lengthens the stream and never reaches the bound on rounds. -/
theorem handleMessage_cases (w : Wire) (message : Int) (st : InitState) :
    (∃ st1, handleMessage w message st = .returned st1 ∧
      st1.incoming.length ≤ st.incoming.length) ∨
    (∃ st1, handleMessage w message st = .blocked st1) ∨
    (∃ st1, handleMessage w message st = .exited 1 st1) := by
  unfold handleMessage
  split
  · cases h : receiveData w.sizeof_SharedConfig st.incoming with
    | none => exact Or.inr (Or.inl ⟨_, rfl⟩)
    | some r =>
      obtain ⟨a, b⟩ := r
      have := receiveData_length _ _ _ _ h
      exact Or.inl ⟨_, rfl, by simp only; omega⟩
  · split
    · cases h : receiveData w.sizeof_size_t st.incoming with
      | none => exact Or.inr (Or.inl ⟨_, rfl⟩)
      | some r =>
        obtain ⟨a, b⟩ := r
        have h1 := receiveData_length _ _ _ _ h
        simp only
        cases h2 : receiveData (w.decodeSize a) b with
        | none => exact Or.inr (Or.inl ⟨_, rfl⟩)
        | some r2 =>
          obtain ⟨c, d⟩ := r2
          have h3 := receiveData_length _ _ _ _ h2
          exact Or.inl ⟨_, rfl, by simp only; omega⟩
    · split
      · unfold receiveString
        cases h : receiveData w.sizeof_string_length st.incoming with
        | none => exact Or.inr (Or.inl ⟨_, rfl⟩)
        | some r =>
          obtain ⟨a, b⟩ := r
          have h1 := receiveData_length _ _ _ _ h
          simp only
          cases h2 : receiveData (w.decodeSize a) b with
          | none => exact Or.inr (Or.inl ⟨_, rfl⟩)
          | some r2 =>
            obtain ⟨c, d⟩ := r2
            have h3 := receiveData_length _ _ _ _ h2
            exact Or.inl ⟨_, rfl, by simp only; omega⟩
      · exact Or.inr (Or.inr ⟨_, rfl⟩)

/-- With a bound above the length of the stream the loop never reaches it: it returns, exits
or is left waiting for bytes. -/
theorem whileLoop_within_bound (w : Wire) :
    ∀ (fuel : Nat) (message : Int) (st : InitState), st.incoming.length < fuel →
      ∀ x : InitState, whileLoop w fuel message st ≠ .outOfFuel x := by
  intro fuel
  induction fuel with
  | zero => intro message st h; omega
  | succ fuel ih =>
    intro message st hlt x
    have hp := w.sizeof_int_pos
    unfold whileLoop
    split
    · rcases handleMessage_cases w message st with ⟨st1, he, hl⟩ | ⟨st1, he⟩ | ⟨st1, he⟩
      · rw [he]
        simp only
        cases h : receiveData w.sizeof_int st1.incoming with
        | none => simp
        | some r =>
          obtain ⟨a, b⟩ := r
          have h1 := receiveData_length _ _ _ _ h
          simp only
          exact ih _ _ (by simp only; omega) x
      · rw [he]
        simp
      · rw [he]
        simp
    · simp

/-- The receive phase with a bound above the length of the stream never reaches the bound. -/
theorem recvLoop_within_bound (w : Wire) (fuel : Nat) (st : InitState)
    (hlt : st.incoming.length < fuel) (x : InitState) : recvLoop w fuel st ≠ .outOfFuel x := by
  unfold recvLoop
  cases h : receiveData w.sizeof_int st.incoming with
  | none => simp
  | some r =>
    obtain ⟨a, b⟩ := r
    have h1 := receiveData_length _ _ _ _ h
    simp only
    exact whileLoop_within_bound w fuel _ _ (by simp only; omega) x

/-- The embedding of `init` is total in the sense of the code: on every stream `init` returns,
calls `exit`, or waits for bytes; the bound on rounds is never reached. -/
theorem init_within_bound (w : Wire) (didConnect : Bool) (mypid : Int) (st : InitState)
    (x : InitState) : init w didConnect mypid st ≠ .outOfFuel x := by
  unfold init
  split
  · simp
  · simp only
    have h := recvLoop_within_bound w (st.incoming.length + 1)
      { st with effects := st.effects ++ handshakeSends w mypid } (by simp)
    split
    · simp
    · rename_i o ho
      intro e
      exact h x e

/-- Witness of C6: the three example messages, the end-of-configuration tag, then three more
bytes, which stay on the stream; the effects are the three sends followed by the seven
initialisation calls. -/
theorem init_handshake_completes_witness :
    ∃ st2 : InitState,
      init exampleWire true 42
        (InitState.start (streamOf exampleMessages ++ ([13, 0, 0, 0] ++ [9, 9, 9])))
        = .returned st2 ∧
      st2.incoming = [9, 9, 9] ∧
      st2.effects =
        [.sendMessage 20, .sendPid 42, .sendMessage 21,
         .aiEmptyInputs, .oldAiEmptyInputs, .gameAiEmptyInputs, .nonDetTimerInitialized,
         .detTimerInitialized, .audiocontextInit, .threadManagerInit] :=
  init_handshake_completes exampleWire 42
    (InitState.start (streamOf exampleMessages ++ ([13, 0, 0, 0] ++ [9, 9, 9])))
    exampleMessages [13, 0, 0, 0] [9, 9, 9] (by decide) (by decide) (by decide) rfl

/-- Witness of C5: the three example messages, the tag -1, then three more bytes, which stay
on the stream. -/
theorem init_unknown_tag_exits_witness :
    ∃ st2 : InitState,
      init exampleWire true 42
        (InitState.start (streamOf exampleMessages ++ ([255, 255, 255, 255] ++ [9, 9, 9])))
        = .exited 1 st2 ∧
      st2.incoming = [9, 9, 9] ∧
      st2.effects = [] ++ handshakeSends exampleWire 42 ∧
      ∀ e ∈ postHandshake, e ∉ handshakeSends exampleWire 42 :=
  init_unknown_tag_exits exampleWire 42
    (InitState.start (streamOf exampleMessages ++ ([255, 255, 255, 255] ++ [9, 9, 9])))
    exampleMessages [255, 255, 255, 255] [9, 9, 9] (by decide) (by decide) (by decide) rfl

/-! ## Properties of subsystem initialisation -/

/-- One disabling statement: within the 32 bits of the variable, bit `k` of the result is
bit `k` of `f` unless the mask has it. -/
theorem clear_bits (f J k : Nat) :
    ((f &&& (0xFFFFFFFF ^^^ J)) % 2 ^ 32).testBit k =
      (decide (k < 32) && (f.testBit k && !J.testBit k)) := by
  have h32 : (0xFFFFFFFF : Nat) = 2 ^ 32 - 1 := by norm_num
  rw [Nat.testBit_mod_two_pow, Nat.testBit_and, Nat.testBit_xor, h32, Nat.testBit_two_pow_sub_one]
  by_cases hk : k < 32 <;> simp [hk]

/-- A 32-bit value has no bit at position 32 or above. -/
theorem testBit_of_lt (f k : Nat) (hf : f < 2 ^ 32) (hk : ¬ k < 32) : f.testBit k = false := by
  apply Nat.testBit_lt_two_pow
  calc f < 2 ^ 32 := hf
    _ ≤ 2 ^ k := Nat.pow_le_pow_right (by norm_num) (by omega)

/-- The flag set after the three disabling statements, bit by bit. -/
theorem maskFlags_testBit (c : InitMasks) (f : Nat) (hf : f < 2 ^ 32) (k : Nat) :
    (maskFlags c f).testBit k =
      (f.testBit k && !(c.SDL_INIT_JOYSTICK.testBit k || c.SDL_INIT_GAMECONTROLLER.testBit k ||
        c.SDL_INIT_AUDIO.testBit k)) := by
  unfold maskFlags
  simp only [clear_bits]
  by_cases hk : k < 32
  · simp only [hk, decide_True, Bool.true_and]
    cases f.testBit k <;> cases c.SDL_INIT_JOYSTICK.testBit k <;>
      cases c.SDL_INIT_GAMECONTROLLER.testBit k <;> cases c.SDL_INIT_AUDIO.testBit k <;> rfl
  · simp [hk, testBit_of_lt f k hf hk]

/-- C4: for every 32-bit flag set `f` passed to the intercepted `SDL_InitSubSystem`, with the
real function resolved: the real function is called once, as the last effect, on the flag set
`maskFlags f`; every bit of that flag set equals the bit of `f`, except that the bits of
`SDL_INIT_JOYSTICK`, `SDL_INIT_GAMECONTROLLER` and `SDL_INIT_AUDIO` are cleared; and the value
returned is the result of the real function on that flag set. -/
theorem SDL_InitSubSystem_masks (c : InitMasks) (real : RealSDL) (st : LibState) (f : Nat)
    (realFn : Nat → Int) (hf : f < 2 ^ 32)
    (hlink : LINK_NAMESPACE_SDLX st.orig.SDL_InitSubSystem real.SDL_InitSubSystem = some realFn) :
    ∃ st2 : LibState,
      SDL_InitSubSystem c real st f = some (realFn (maskFlags c f), st2) ∧
      st2.effects = st.effects ++
        [.linkSdlwindows, .linkSdlevents, .linkSdlthreads, .linkSdltimer, .setMainThread,
         .realInitSubSystem (maskFlags c f)] ∧
      maskFlags c f < 2 ^ 32 ∧
      ∀ k : Nat, (maskFlags c f).testBit k =
        (f.testBit k && !(c.SDL_INIT_JOYSTICK.testBit k ||
          c.SDL_INIT_GAMECONTROLLER.testBit k || c.SDL_INIT_AUDIO.testBit k)) := by
  refine ⟨{ orig :=
              { st.orig with
                SDL_InitSubSystem := some realFn
                SDL_Quit := LINK_NAMESPACE_SDLX st.orig.SDL_Quit real.SDL_Quit }
            game_info :=
              recordSubsystems c
                (if real.SDLver = 2 then c.SDL2 else (if real.SDLver = 1 then c.SDL1 else c.NO_SDL))
                f st.game_info
            effects :=
              st.effects ++ [.linkSdlwindows, .linkSdlevents, .linkSdlthreads, .linkSdltimer,
                .setMainThread] ++ [.realInitSubSystem (maskFlags c f)] },
    ?_, ?_, ?_, maskFlags_testBit c f hf⟩
  · simp only [SDL_InitSubSystem, hlink]
  · simp only [List.append_assoc, List.cons_append, List.nil_append]
  · unfold maskFlags
    exact Nat.mod_lt _ (by norm_num)

/-- Witness of C4: on an SDL 2 library, for the flag set timer, audio, video, joystick, game
controller (`0x2231`), the real function receives timer and video (`0x21`) and its result 0 is
returned. -/
theorem SDL_InitSubSystem_masks_witness :
    maskFlags sdl2Masks 0x2231 = 0x21 ∧
    ∃ st2 : LibState,
      SDL_InitSubSystem sdl2Masks exampleSDL2 LibState.start 0x2231 =
        some ((fun flags => if flags &&& 0x2210 = 0 then 0 else -1) (maskFlags sdl2Masks 0x2231),
          st2) ∧
      st2.effects = LibState.start.effects ++
        [.linkSdlwindows, .linkSdlevents, .linkSdlthreads, .linkSdltimer, .setMainThread,
         .realInitSubSystem (maskFlags sdl2Masks 0x2231)] ∧
      maskFlags sdl2Masks 0x2231 < 2 ^ 32 ∧
      ∀ k : Nat, (maskFlags sdl2Masks 0x2231).testBit k =
        (Nat.testBit 0x2231 k && !(sdl2Masks.SDL_INIT_JOYSTICK.testBit k ||
          sdl2Masks.SDL_INIT_GAMECONTROLLER.testBit k || sdl2Masks.SDL_INIT_AUDIO.testBit k)) :=
  ⟨by decide, SDL_InitSubSystem_masks sdl2Masks exampleSDL2 LibState.start 0x2231 _
    (by decide) rfl⟩

/-- The intercepted `SDL_InitSubSystem` with the real function resolved: the value returned and
the state left. -/
theorem SDL_InitSubSystem_resolved (c : InitMasks) (real : RealSDL) (st : LibState) (f : Nat)
    (realFn : Nat → Int)
    (hlink : LINK_NAMESPACE_SDLX st.orig.SDL_InitSubSystem real.SDL_InitSubSystem = some realFn) :
    SDL_InitSubSystem c real st f = some (realFn (maskFlags c f),
      { orig :=
          { st.orig with
            SDL_InitSubSystem := some realFn
            SDL_Quit := LINK_NAMESPACE_SDLX st.orig.SDL_Quit real.SDL_Quit }
        game_info :=
          recordSubsystems c
            (if real.SDLver = 2 then c.SDL2 else (if real.SDLver = 1 then c.SDL1 else c.NO_SDL))
            f st.game_info
        effects :=
          st.effects ++ [.linkSdlwindows, .linkSdlevents, .linkSdlthreads, .linkSdltimer,
            .setMainThread, .realInitSubSystem (maskFlags c f)] }) := by
  simp only [SDL_InitSubSystem, hlink, List.append_assoc, List.cons_append, List.nil_append]

/-- C11, counterexample: on an SDL 1.2 library the intercepted `SDL_Init(0x2231)` (timer, audio,
video, joystick, game controller) calls the real `SDL_Init` with the flag set unchanged, joystick
bit 9 included, and returns its result -1; the intercepted `SDL_InitSubSystem(0x2231)` calls the
real `SDL_InitSubSystem` with `0x21` and returns 0. -/
theorem SDL_Init_version1_not_forwarded :
    (SDL_Init sdl2Masks exampleSDL1 LibState.start 0x2231).map
      (fun r => (r.1, r.2.effects)) = some (-1, [.realInit 0x2231]) ∧
    Nat.testBit 0x2231 9 = true ∧
    (SDL_InitSubSystem sdl2Masks exampleSDL1 LibState.start 0x2231).map
      (fun r => (r.1, r.2.effects)) =
      some (0, [.linkSdlwindows, .linkSdlevents, .linkSdlthreads, .linkSdltimer, .setMainThread,
        .realInitSubSystem 0x21]) := by
  decide

/-- C11 as amended: for every 32-bit flag set `f`, with the real functions resolved.
When the detected major version is 2, the intercepted `SDL_Init(f)` forwards to the intercepted
`SDL_InitSubSystem(f)`: it returns the value that entry point returns, and the only call of the
real library is `SDL_InitSubSystem` on `f` with the joystick, game-controller and audio bits
cleared. When the detected major version is 1, `SDL_Init(f)` calls the real `SDL_Init` on `f`
unchanged, once, and returns its result. -/
theorem SDL_Init_by_version (c : InitMasks) (real : RealSDL) (st : LibState) (f : Nat)
    (realInit realSub : Nat → Int) (hf : f < 2 ^ 32)
    (hInit : LINK_NAMESPACE_SDLX st.orig.SDL_Init real.SDL_Init = some realInit)
    (hSub : LINK_NAMESPACE_SDLX st.orig.SDL_InitSubSystem real.SDL_InitSubSystem
      = some realSub) :
    (real.SDLver = 2 →
      ∃ st2 : LibState,
        SDL_Init c real st f = some (realSub (maskFlags c f), st2) ∧
        (SDL_InitSubSystem c real st f).map Prod.fst = some (realSub (maskFlags c f)) ∧
        st2.effects = st.effects ++
          [.linkSdlwindows, .linkSdlevents, .linkSdlthreads, .linkSdltimer, .setMainThread,
           .realInitSubSystem (maskFlags c f)] ∧
        ∀ k : Nat, (maskFlags c f).testBit k =
          (f.testBit k && !(c.SDL_INIT_JOYSTICK.testBit k ||
            c.SDL_INIT_GAMECONTROLLER.testBit k || c.SDL_INIT_AUDIO.testBit k))) ∧
    (real.SDLver = 1 →
      ∃ st2 : LibState,
        SDL_Init c real st f = some (realInit f, st2) ∧
        st2.effects = st.effects ++ [.realInit f]) := by
  constructor
  · intro hv
    have h21 : ¬ ((2 : Int) = 1) := by decide
    have e0 : SDL_Init c real st f = SDL_InitSubSystem c real
        { st with orig := { st.orig with SDL_Init := some realInit } } f := by
      simp only [SDL_Init, hv, hInit, h21, if_false, if_true]
    have e1 := SDL_InitSubSystem_resolved c real
      { st with orig := { st.orig with SDL_Init := some realInit } } f realSub hSub
    have e2 := SDL_InitSubSystem_resolved c real st f realSub hSub
    exact ⟨_, e0.trans e1, by rw [e2]; rfl, rfl, maskFlags_testBit c f hf⟩
  · intro hv
    have e0 : SDL_Init c real st f = some (realInit f,
        { st with
          orig := { st.orig with SDL_Init := some realInit }
          effects := st.effects ++ [.realInit f] }) := by
      simp only [SDL_Init, hv, hInit, if_true]
    exact ⟨_, e0, rfl⟩

/-- Witness of the amended C11: the flag set `0x2231` on an SDL 2 library, where the real
`SDL_InitSubSystem` receives `0x21` and 0 is returned, and on an SDL 1.2 library, where the
real `SDL_Init` receives `0x2231` and -1 is returned. -/
theorem SDL_Init_by_version_witness :
    (∃ st2 : LibState,
      SDL_Init sdl2Masks exampleSDL2 LibState.start 0x2231 = some (0, st2) ∧
      st2.effects = [.linkSdlwindows, .linkSdlevents, .linkSdlthreads, .linkSdltimer,
        .setMainThread, .realInitSubSystem 0x21]) ∧
    (∃ st2 : LibState,
      SDL_Init sdl2Masks exampleSDL1 LibState.start 0x2231 = some (-1, st2) ∧
      st2.effects = [.realInit 0x2231]) := by
  obtain ⟨s2, a1, _, a3, _⟩ :=
    (SDL_Init_by_version sdl2Masks exampleSDL2 LibState.start 0x2231 _ _ (by decide) rfl rfl).1
      rfl
  obtain ⟨s1, b1, b2⟩ :=
    (SDL_Init_by_version sdl2Masks exampleSDL1 LibState.start 0x2231 _ _ (by decide) rfl rfl).2
      rfl
  exact ⟨⟨s2, a1, a3⟩, ⟨s1, b1, b2⟩⟩

/-- Resolving a symbol the library has leaves the pointer set. -/
theorem LINK_NAMESPACE_SDLX_some {α : Type} (pointer : Option α) (r : α) :
    ∃ g : α, LINK_NAMESPACE_SDLX pointer (some r) = some g := by
  cases pointer with
  | none => exact ⟨r, rfl⟩
  | some p => exact ⟨p, rfl⟩

/-- Resolving a symbol the library lacks into a null pointer leaves the pointer null. -/
theorem LINK_NAMESPACE_SDLX_none {α : Type} :
    LINK_NAMESPACE_SDLX (none : Option α) none = none := rfl

/-- The intercepted `SDL_InitSubSystem` on a library that has the symbols `SDL_InitSubSystem`
and `SDL_Quit`: it returns, and leaves `orig::SDL_Quit` set. -/
theorem SDL_InitSubSystem_links_quit (c : InitMasks) (real : RealSDL) (st : LibState) (f : Nat)
    (g2 : Nat → Int) (h2 : real.SDL_InitSubSystem = some g2) (h3 : real.SDL_Quit = some ()) :
    ∃ (v : Int) (st2 : LibState), SDL_InitSubSystem c real st f = some (v, st2) ∧
      st2.orig.SDL_Quit.isSome = true := by
  obtain ⟨g, hg⟩ := LINK_NAMESPACE_SDLX_some st.orig.SDL_InitSubSystem g2
  rw [← h2] at hg
  obtain ⟨q, hq⟩ := LINK_NAMESPACE_SDLX_some st.orig.SDL_Quit ()
  refine ⟨_, _, SDL_InitSubSystem_resolved c real st f g hg, ?_⟩
  simp only [h3, hq, Option.isSome_some]

/-- The intercepted `SDL_Init` on a library that has every symbol: it returns, and leaves
`orig::SDL_Quit` set when it was set before or when the version is 2. -/
theorem SDL_Init_links_quit (c : InitMasks) (real : RealSDL) (st : LibState) (f : Nat)
    (g1 g2 : Nat → Int) (h1 : real.SDL_Init = some g1) (h2 : real.SDL_InitSubSystem = some g2)
    (h3 : real.SDL_Quit = some ()) (linked : Bool)
    (hl : linked = true → st.orig.SDL_Quit.isSome = true) :
    ∃ (v : Int) (st2 : LibState), SDL_Init c real st f = some (v, st2) ∧
      ((linked || decide (real.SDLver = 2)) = true → st2.orig.SDL_Quit.isSome = true) := by
  obtain ⟨g, hg⟩ := LINK_NAMESPACE_SDLX_some st.orig.SDL_Init g1
  rw [← h1] at hg
  by_cases hv1 : real.SDLver = 1
  · have hne : ¬ real.SDLver = 2 := by omega
    refine ⟨g f, { st with
      orig := { st.orig with SDL_Init := some g }
      effects := st.effects ++ [.realInit f] }, ?_, ?_⟩
    · simp only [SDL_Init, hv1, hg, if_true]
    · intro h
      simp only [hne, decide_False, Bool.or_false] at h
      exact hl h
  · by_cases hv2 : real.SDLver = 2
    · obtain ⟨v, st2, e, hq⟩ := SDL_InitSubSystem_links_quit c real
        { st with orig := { st.orig with SDL_Init := some g } } f g2 h2 h3
      refine ⟨v, st2, ?_, fun _ => hq⟩
      simp only [SDL_Init, hv1, hv2, hg, if_false, if_true]
      exact e
    · refine ⟨0, { st with orig := { st.orig with SDL_Init := some g } }, ?_, ?_⟩
      · simp only [SDL_Init, hv1, hv2, hg, if_false]
      · intro h
        simp only [hv2, decide_False, Bool.or_false] at h
        exact hl h

/-- A sequence of calls on a library that has every symbol, each `SDL_Quit` coming after a run
of the intercepted `SDL_InitSubSystem`: no call goes through a null pointer. -/
theorem runEntries_resolved (c : InitMasks) (w : Wire) (real : RealSDL) (g1 g2 : Nat → Int)
    (h1 : real.SDL_Init = some g1) (h2 : real.SDL_InitSubSystem = some g2)
    (h3 : real.SDL_Quit = some ()) (es : List EntryCall) :
    ∀ (st : LibState) (linked : Bool), (linked = true → st.orig.SDL_Quit.isSome = true) →
      quitAfterLink real linked es = true → ∃ st2 : LibState,
        runEntries c w real st es = some st2 := by
  induction es with
  | nil => intro st linked _ _; exact ⟨st, rfl⟩
  | cons e es ih =>
    intro st linked hl hq
    cases e with
    | sdlInit f =>
      simp only [quitAfterLink] at hq
      obtain ⟨v, st2, e1, hl2⟩ := SDL_Init_links_quit c real st f g1 g2 h1 h2 h3 linked hl
      obtain ⟨st3, e3⟩ := ih st2 _ hl2 hq
      exact ⟨st3, by simp only [runEntries, EntryCall.apply, e1, Option.map_some']; exact e3⟩
    | sdlInitSubSystem f =>
      simp only [quitAfterLink] at hq
      obtain ⟨v, st2, e1, hl2⟩ := SDL_InitSubSystem_links_quit c real st f g2 h2 h3
      obtain ⟨st3, e3⟩ := ih st2 true (fun _ => hl2) hq
      exact ⟨st3, by simp only [runEntries, EntryCall.apply, e1, Option.map_some']; exact e3⟩
    | sdlQuit =>
      simp only [quitAfterLink, Bool.and_eq_true] at hq
      have hs := hl hq.1
      obtain ⟨u, hu⟩ := Option.isSome_iff_exists.mp hs
      obtain ⟨st3, e3⟩ := ih
        { st with effects := st.effects ++ [.sendMessage w.MSGB_QUIT] ++ [.realQuit] } linked
        hl hq.2
      exact ⟨st3, by simp only [runEntries, EntryCall.apply, SDL_Quit, hu]; exact e3⟩

/-- C12, counterexample: on an SDL 2 library that lacks the symbol `SDL_InitSubSystem`, the
pointer `orig::SDL_InitSubSystem` stays null after resolution and the intercepted
`SDL_InitSubSystem`, called directly or through `SDL_Init`, calls through it: there is no test
of the pointer and no fallback. Moreover, on a library that has every symbol, `SDL_Quit` as the
first call goes through `orig::SDL_Quit`, which only `SDL_InitSubSystem` resolves. -/
theorem unresolved_pointer_is_called :
    LINK_NAMESPACE_SDLX LibState.start.orig.SDL_InitSubSystem
      exampleSDL2Missing.SDL_InitSubSystem = none ∧
    (SDL_InitSubSystem sdl2Masks exampleSDL2Missing LibState.start 0x21).isNone = true ∧
    (SDL_Init sdl2Masks exampleSDL2Missing LibState.start 0x21).isNone = true ∧
    (runEntries sdl2Masks exampleWire exampleSDL2Missing LibState.start
      [.sdlInitSubSystem 0x21]).isNone = true ∧
    exampleSDL2.SDL_Quit.isSome = true ∧
    (runEntries sdl2Masks exampleWire exampleSDL2 LibState.start [.sdlQuit]).isNone = true := by
  refine ⟨rfl, by decide, by decide, by decide, by decide, by decide⟩

/-- C12 as amended: on a library in which each of the three real symbols resolves, in every
sequence of calls to the intercepted `SDL_Init`, `SDL_InitSubSystem` and `SDL_Quit` in which
each `SDL_Quit` comes after a run of the intercepted `SDL_InitSubSystem` (directly, or through
`SDL_Init` when the version is 2, or before the sequence), every call returns: no entry point
calls through a null pointer. -/
theorem entry_points_call_resolved_pointers (c : InitMasks) (w : Wire) (real : RealSDL)
    (st : LibState) (es : List EntryCall) (g1 g2 : Nat → Int)
    (h1 : real.SDL_Init = some g1) (h2 : real.SDL_InitSubSystem = some g2)
    (h3 : real.SDL_Quit = some ())
    (hq : quitAfterLink real st.orig.SDL_Quit.isSome es = true) :
    ∃ st2 : LibState, runEntries c w real st es = some st2 :=
  runEntries_resolved c w real g1 g2 h1 h2 h3 es st st.orig.SDL_Quit.isSome (fun h => h) hq

/-- Witness of the amended C12: on the SDL 2 library of the examples, from null pointers, the
calls `SDL_Init`, `SDL_InitSubSystem`, `SDL_Quit`, `SDL_InitSubSystem`, `SDL_Quit`. -/
theorem entry_points_call_resolved_pointers_witness :
    ∃ st2 : LibState,
      runEntries sdl2Masks exampleWire exampleSDL2 LibState.start
        [.sdlInit 0x2231, .sdlInitSubSystem 0x21, .sdlQuit, .sdlInitSubSystem 0x20, .sdlQuit]
        = some st2 :=
  entry_points_call_resolved_pointers sdl2Masks exampleWire exampleSDL2 LibState.start
    [.sdlInit 0x2231, .sdlInitSubSystem 0x21, .sdlQuit, .sdlInitSubSystem 0x20, .sdlQuit]
    _ _ rfl rfl rfl (by decide)

/-- C13: in every call of the intercepted `SDL_Quit`, the effects of the call begin with
exactly one quit message, `sendMessage(MSGB_QUIT)`, which carries no payload; the call through
`orig::SDL_Quit` comes after it. When the pointer is set the effects are that message followed
by the single call of the real shutdown function, and `SDL_Quit` returns; when the pointer is
null the only effect is the message, sent before the call through the pointer. -/
theorem SDL_Quit_notifies_first (w : Wire) (st : LibState) :
    (st.orig.SDL_Quit.isSome = true ∧ ∃ st2 : LibState, SDL_Quit w st = .ok st2 ∧
      st2.effects = st.effects ++ [.sendMessage w.MSGB_QUIT, .realQuit] ∧
      st2.orig = st.orig ∧ st2.game_info = st.game_info) ∨
    (st.orig.SDL_Quit = none ∧ ∃ st2 : LibState, SDL_Quit w st = .error st2 ∧
      st2.effects = st.effects ++ [.sendMessage w.MSGB_QUIT]) := by
  cases h : st.orig.SDL_Quit with
  | none =>
    right
    refine ⟨rfl, { st with effects := st.effects ++ [.sendMessage w.MSGB_QUIT] }, ?_, rfl⟩
    simp only [SDL_Quit, h]
  | some u =>
    left
    refine ⟨rfl, { st with effects := st.effects ++ [.sendMessage w.MSGB_QUIT, .realQuit] },
      ?_, rfl, rfl, rfl⟩
    simp only [SDL_Quit, h, List.append_assoc, List.cons_append, List.nil_append]

/-- C14: the event-generation mode is a tri-state setter and query. `SDL_GameControllerEventState(1)`
sets the mode to enabled and returns 1; `(0)` sets it to disabled and returns 0; `(-1)` returns
the current mode as 1 or 0 and leaves the whole state unchanged; hence a set followed by a query
returns what was set; the mode of the initial state is enabled; and every argument other than 1
and 0 leaves the state unchanged (and, other than -1, is returned as it is). -/
theorem SDL_GameControllerEventState_tristate {nAxes : Nat} (s : State nAxes) :
    SDL_GameControllerEventState s 1 = (1, { s with sdl_controller_events := true }) ∧
    SDL_GameControllerEventState s 0 = (0, { s with sdl_controller_events := false }) ∧
    SDL_GameControllerEventState s (-1) = ((if s.sdl_controller_events then 1 else 0), s) ∧
    (SDL_GameControllerEventState (SDL_GameControllerEventState s 1).2 (-1)).1 = 1 ∧
    (SDL_GameControllerEventState (SDL_GameControllerEventState s 0).2 (-1)).1 = 0 ∧
    (∀ (N : Int) (ai : AllInputs nAxes),
      (SDL_GameControllerEventState (State.initial N ai) (-1)).1 = 1) ∧
    (∀ x : Int, x ≠ 1 → x ≠ 0 → (SDL_GameControllerEventState s x).2 = s) ∧
    (∀ x : Int, x ≠ 1 → x ≠ 0 → x ≠ -1 → (SDL_GameControllerEventState s x).1 = x) := by
  refine ⟨rfl, rfl, rfl, rfl, rfl, fun _ _ => rfl, ?_, ?_⟩
  · intro x h1 h0
    unfold SDL_GameControllerEventState
    simp only [h1, h0, if_false]
    split <;> rfl
  · intro x h1 h0 hm
    unfold SDL_GameControllerEventState
    simp only [h1, h0, hm, if_false]

/-- The configuration record after a sequence of messages is stored: the record of the last
configuration message, or the former one when there is none. -/
theorem foldl_store_shared_config (ms : List Message) :
    ∀ st : InitState, (ms.foldl Message.store st).shared_config =
      ((ms.filterMap Message.configRecord).getLast?).getD st.shared_config := by
  induction ms with
  | nil => intro st; rfl
  | cons m ms ih =>
    intro st
    rw [List.foldl_cons, ih]
    cases m with
    | config tag record =>
      simp only [Message.store, List.filterMap_cons, Message.configRecord, List.getLast?_cons,
        Option.getD_some]
    | dumpFile tag size name =>
      simp only [Message.store, List.filterMap_cons, Message.configRecord]
    | libFile tag length str =>
      simp only [Message.store, List.filterMap_cons, Message.configRecord]

/-- The library list after a sequence of messages is stored: the former list followed by the
strings of the auxiliary-library messages, in the order received. -/
theorem foldl_store_libraries (ms : List Message) :
    ∀ st : InitState, (ms.foldl Message.store st).libraries =
      st.libraries ++ ms.filterMap Message.libString := by
  induction ms with
  | nil => intro st; simp
  | cons m ms ih =>
    intro st
    rw [List.foldl_cons, ih]
    cases m with
    | config tag record =>
      simp only [Message.store, List.filterMap_cons, Message.libString]
    | dumpFile tag size name =>
      simp only [Message.store, List.filterMap_cons, Message.libString]
    | libFile tag length str =>
      simp only [Message.store, List.filterMap_cons, Message.libString, List.append_assoc,
        List.singleton_append]

/-- Appending strings one by one with `add_lib` appends the list of them. -/
theorem foldl_add_lib (strs : List (List Byte)) :
    ∀ libs : List (List Byte), strs.foldl add_lib libs = libs ++ strs := by
  induction strs with
  | nil => intro libs; simp
  | cons x xs ih =>
    intro libs
    rw [List.foldl_cons, ih]
    simp [add_lib]

/-- The variables of `init` when it returns after a sequence of well-formed messages and the
end-of-configuration tag. -/
theorem init_on_messages (w : Wire) (mypid : Int) (st : InitState) (ms : List Message)
    (endTag rest : List Byte) (hwf : ∀ m ∈ ms, m.wellFormed w)
    (hlen : endTag.length = w.sizeof_int) (hend : w.decodeInt endTag = w.MSGN_END_INIT)
    (hst : st.incoming = streamOf ms ++ (endTag ++ rest)) :
    init w true mypid st = .returned
      { ms.foldl Message.store { st with effects := st.effects ++ handshakeSends w mypid } with
        incoming := rest
        effects := st.effects ++ handshakeSends w mypid ++ postHandshake } := by
  have h1 := recvLoop_from_init w ms (endTag ++ rest)
    { st with effects := st.effects ++ handshakeSends w mypid } hwf hst
  have h2 := recvLoop_end w (st.incoming.length - ms.length) endTag rest
    { ms.foldl Message.store { st with effects := st.effects ++ handshakeSends w mypid } with
      incoming := endTag ++ rest } hlen hend rfl
  simp only [init, Bool.not_true, Bool.false_eq_true, if_false]
  rw [h1, h2]
  simp only [foldl_store_effects]

/-- C15: handshake result. For every sequence `ms` of well-formed messages followed by the
end-of-configuration tag, `init` returns with the shared configuration equal to the record of the
last configuration message of `ms` (the former configuration when `ms` has none) and with the
library list equal to the former list followed by the strings of the auxiliary-library messages
of `ms`, once each, in the order received, which is the result of one `add_lib` per such message
in that order. Dump-target messages contribute to neither: they have no configuration record and
no library string. -/
theorem init_handshake_result (w : Wire) (mypid : Int) (st : InitState) (ms : List Message)
    (endTag rest : List Byte) (hwf : ∀ m ∈ ms, m.wellFormed w)
    (hlen : endTag.length = w.sizeof_int) (hend : w.decodeInt endTag = w.MSGN_END_INIT)
    (hst : st.incoming = streamOf ms ++ (endTag ++ rest)) :
    ∃ st2 : InitState, init w true mypid st = .returned st2 ∧
      st2.shared_config =
        ((ms.filterMap Message.configRecord).getLast?).getD st.shared_config ∧
      st2.libraries = st.libraries ++ ms.filterMap Message.libString ∧
      st2.libraries = (ms.filterMap Message.libString).foldl add_lib st.libraries ∧
      (∀ tag size name, Message.configRecord (.dumpFile tag size name) = none ∧
        Message.libString (.dumpFile tag size name) = none) := by
  refine ⟨_, init_on_messages w mypid st ms endTag rest hwf hlen hend hst, ?_, ?_, ?_, ?_⟩
  · simp only [foldl_store_shared_config]
  · simp only [foldl_store_libraries]
  · simp only [foldl_store_libraries, foldl_add_lib]
  · intro tag size name
    exact ⟨rfl, rfl⟩

/-- Witness of C15: the three example messages, a second configuration message and a second
library message, then the end-of-configuration tag: the configuration is the second record and
the library list holds `a.so` then `b.so`. -/
theorem init_handshake_result_witness :
    ∃ st2 : InitState,
      init exampleWire true 42
        (InitState.start (streamOf exampleMessagesTwice ++ ([13, 0, 0, 0] ++ [])))
        = .returned st2 ∧
      st2.shared_config = [3, 0, 0, 0, 4, 0, 0, 0] ∧
      st2.libraries = [[97, 46, 115, 111], [98, 46, 115, 111]] := by
  obtain ⟨st2, h1, h2, h3, _⟩ := init_handshake_result exampleWire 42
    (InitState.start (streamOf exampleMessagesTwice ++ ([13, 0, 0, 0] ++ [])))
    exampleMessagesTwice [13, 0, 0, 0] [] (by decide) (by decide) (by decide) rfl
  exact ⟨st2, h1, h2, h3⟩

/-! ## The controller table as a state machine -/

/-- The attachment query at the integer value of a slot number. -/
theorem SDL_GameControllerGetAttached_fin {nAxes : Nat} (s : State nAxes) (k : Fin 4) :
    SDL_GameControllerGetAttached s ((k : Nat) : Int) = some (decide (s.joyid k ≠ -1)) := by
  unfold SDL_GameControllerGetAttached
  rw [readSlot_fin]
  by_cases h : s.joyid k = -1 <;> simp [h]

/-- One event that addresses the table succeeds, keeps every entry `joyid[k]` at -1 or `k`, and
changes attachment as the most recent open-or-close call tells. -/
theorem Call.apply_inTable {nAxes : Nat} (c : Call nAxes) (s : State nAxes) (hc : c.inTable)
    (hinv : ∀ k : Fin 4, s.joyid k = -1 ∨ s.joyid k = ((k : Nat) : Int)) :
    ∃ s1 : State nAxes, c.apply s = some s1 ∧
      (∀ k : Fin 4, s1.joyid k = -1 ∨ s1.joyid k = ((k : Nat) : Int)) ∧
      (∀ k : Fin 4, decide (s1.joyid k ≠ -1) =
        c.lastWasOpen ((k : Nat) : Int) (decide (s.joyid k ≠ -1))) := by
  cases c with
  | gcOpen i =>
    obtain ⟨m, hm⟩ := exists_fin_of_inside i hc.1 hc.2
    subst hm
    have hm4 := m.isLt
    refine ⟨{ s with joyid := Function.update s.joyid m ((m : Nat) : Int) }, ?_, ?_, ?_⟩
    · simp only [Call.apply, SDL_GameControllerOpen, writeSlot_fin, Option.map_some']
    · intro k
      by_cases hk : k = m
      · subst hk
        right
        simp
      · simp only [Function.update_noteq hk]
        exact hinv k
    · intro k
      by_cases hk : k = m
      · subst hk
        have hne : ((k : Nat) : Int) ≠ -1 := by omega
        simp [Call.lastWasOpen, hne]
      · have hne : ¬ ((m : Nat) : Int) = ((k : Nat) : Int) := by
          intro e
          exact hk (Fin.ext (by omega))
        simp only [Function.update_noteq hk, Call.lastWasOpen, hne, if_false]
  | gcClose gc =>
    obtain ⟨m, hm⟩ := exists_fin_of_inside gc hc.1 hc.2
    subst hm
    refine ⟨{ s with joyid := Function.update s.joyid m (-1) }, ?_, ?_, ?_⟩
    · simp only [Call.apply, SDL_GameControllerClose, writeSlot_fin]
    · intro k
      by_cases hk : k = m
      · subst hk
        left
        simp
      · simp only [Function.update_noteq hk]
        exact hinv k
    · intro k
      by_cases hk : k = m
      · subst hk
        simp [Call.lastWasOpen]
      · have hne : ¬ ((m : Nat) : Int) = ((k : Nat) : Int) := by
          intro e
          exact hk (Fin.ext (by omega))
        simp only [Function.update_noteq hk, Call.lastWasOpen, hne, if_false]
  | inputs ai =>
    exact ⟨setInputs s ai, rfl, hinv, fun k => rfl⟩

/-- A sequence of events that address the table succeeds, keeps every entry `joyid[k]` at -1
or `k`, and leaves slot `k` attached exactly when the most recent open-or-close call on `k`
was an open (when there was none: exactly when it was attached before). -/
theorem run_inTable {nAxes : Nat} (cs : List (Call nAxes)) :
    ∀ s : State nAxes, (∀ c ∈ cs, c.inTable) →
      (∀ k : Fin 4, s.joyid k = -1 ∨ s.joyid k = ((k : Nat) : Int)) →
      ∃ s2 : State nAxes, run s cs = some s2 ∧
        (∀ k : Fin 4, s2.joyid k = -1 ∨ s2.joyid k = ((k : Nat) : Int)) ∧
        (∀ k : Fin 4, decide (s2.joyid k ≠ -1) =
          cs.foldl (Call.lastWasOpen ((k : Nat) : Int)) (decide (s.joyid k ≠ -1))) := by
  induction cs with
  | nil => intro s _ hinv; exact ⟨s, rfl, hinv, fun k => rfl⟩
  | cons c cs ih =>
    intro s hc hinv
    obtain ⟨s1, e1, hinv1, hat1⟩ := Call.apply_inTable c s (hc c (List.mem_cons_self _ _)) hinv
    obtain ⟨s2, e2, hinv2, hat2⟩ := ih s1 (fun d hd => hc d (List.mem_cons_of_mem _ hd)) hinv1
    refine ⟨s2, ?_, hinv2, ?_⟩
    · simp only [run, e1]
      exact e2
    · intro k
      rw [hat2 k, hat1 k, List.foldl_cons]

/-- No event changes the configured count. -/
theorem run_numControllers {nAxes : Nat} (cs : List (Call nAxes)) :
    ∀ s s2 : State nAxes, run s cs = some s2 → s2.numControllers = s.numControllers := by
  induction cs with
  | nil =>
    intro s s2 h
    simp only [run, Option.some.injEq] at h
    rw [← h]
  | cons c cs ih =>
    intro s s2 h
    simp only [run] at h
    cases ha : c.apply s with
    | none => simp [ha] at h
    | some s1 =>
      simp only [ha] at h
      rw [ih s1 s2 h]
      cases c with
      | gcOpen i =>
        simp only [Call.apply, SDL_GameControllerOpen] at ha
        cases hw : writeSlot s.joyid i i with
        | none => simp [hw] at ha
        | some u =>
          simp [hw] at ha
          rw [← ha]
      | gcClose gc =>
        simp only [Call.apply, SDL_GameControllerClose] at ha
        cases hw : writeSlot s.joyid gc (-1) with
        | none => simp [hw] at ha
        | some u =>
          simp [hw] at ha
          rw [← ha]
      | inputs ai =>
        simp only [Call.apply, setInputs, Option.some.injEq] at ha
        rw [← ha]

/-- The queries on a handle whose entry holds its own index read the input slot of that index:
the axis query returns the stored axis value, the button query the stored button bit. -/
theorem queries_read_own_slot {nAxes : Nat} (s : State nAxes) (k : Fin 4)
    (hj : s.joyid k = ((k : Nat) : Int)) :
    (∀ a : Fin nAxes, SDL_GameControllerGetAxis s ((k : Nat) : Int) ((a : Nat) : Int) =
      some (s.ai.controller_axes k a)) ∧
    (∀ (BUTTON_MAX b : Int), 0 ≤ b → b < BUTTON_MAX →
      SDL_GameControllerGetButton BUTTON_MAX s ((k : Nat) : Int) b =
        some (if (s.ai.controller_buttons k).testBit b.toNat then 1 else 0)) := by
  have hk4 := k.isLt
  have hne : ¬ ((k : Nat) : Int) = -1 := by omega
  constructor
  · intro a
    have ha := a.isLt
    have hsel : ¬ (((a : Nat) : Int) < 0 ∨ ((a : Nat) : Int) ≥ SDL_CONTROLLER_AXIS_MAX nAxes) := by
      unfold SDL_CONTROLLER_AXIS_MAX
      omega
    unfold SDL_GameControllerGetAxis
    rw [readSlot_fin, hj]
    simp only [hne, hsel, if_false]
    rw [readSlot_fin]
    simp only [readAxis]
    rw [dif_pos ⟨by omega, by omega⟩]
    simp
  · intro BUTTON_MAX b hb0 hb
    have hsel : ¬ (b < 0 ∨ b ≥ BUTTON_MAX) := by omega
    unfold SDL_GameControllerGetButton
    rw [readSlot_fin, hj]
    simp only [hne, hsel, if_false]
    rw [readSlot_fin]
    simp only [shift_mask_eq_testBit]

/-- C16: slot state-machine invariant. From the initial state (all four slots detached), after
every prefix `pre` of every sequence of `SDL_GameControllerOpen` and `SDL_GameControllerClose`
calls on indices in `[0, 4)` (input updates may be interleaved): every call has succeeded; each
entry `joyid[k]` is -1 or `k`; `SDL_GameControllerGetAttached` for `k` is true exactly when the
most recent open-or-close call on `k` was an open (false when there was none); and on an
attached handle to `k` the axis query returns the stored axis value of slot `k` and the button
query the stored button bit of slot `k`. -/
theorem joyid_state_machine {nAxes : Nat} (N : Int) (ai : AllInputs nAxes)
    (cs pre : List (Call nAxes)) (hc : ∀ c ∈ cs, c.inTable) (hpre : pre <+: cs) :
    ∃ s : State nAxes, run (State.initial N ai) pre = some s ∧
      (∀ k : Fin 4, s.joyid k = -1 ∨ s.joyid k = ((k : Nat) : Int)) ∧
      (∀ k : Fin 4, SDL_GameControllerGetAttached s ((k : Nat) : Int) =
        some (lastWasOpen ((k : Nat) : Int) pre)) ∧
      (∀ k : Fin 4, SDL_GameControllerGetAttached s ((k : Nat) : Int) = some true →
        (∀ a : Fin nAxes, SDL_GameControllerGetAxis s ((k : Nat) : Int) ((a : Nat) : Int) =
          some (s.ai.controller_axes k a)) ∧
        (∀ (BUTTON_MAX b : Int), 0 ≤ b → b < BUTTON_MAX →
          SDL_GameControllerGetButton BUTTON_MAX s ((k : Nat) : Int) b =
            some (if (s.ai.controller_buttons k).testBit b.toNat then 1 else 0))) := by
  obtain ⟨s, e, hinv, hat⟩ := run_inTable pre (State.initial N ai)
    (fun c hcp => hc c (hpre.subset hcp)) (fun _ => Or.inl rfl)
  refine ⟨s, e, hinv, ?_, ?_⟩
  · intro k
    rw [SDL_GameControllerGetAttached_fin, hat k]
    simp [lastWasOpen, State.initial]
  · intro k hk
    rw [SDL_GameControllerGetAttached_fin] at hk
    have hne : s.joyid k ≠ -1 := by simpa using hk
    rcases hinv k with h | h
    · exact absurd h hne
    · exact queries_read_own_slot s k h

/-- Witness of C16: two controllers configured; open 0, open 1, close 0. -/
theorem joyid_state_machine_witness :
    ∃ s : State 6, run twoControllers [.gcOpen 0, .gcOpen 1, .gcClose 0] = some s ∧
      SDL_GameControllerGetAttached s 0 = some false ∧
      SDL_GameControllerGetAttached s 1 = some true := by
  obtain ⟨s, e, _, hat, _⟩ := joyid_state_machine 2 (AllInputs.empty 6)
    [.gcOpen 0, .gcOpen 1, .gcClose 0] [.gcOpen 0, .gcOpen 1, .gcClose 0] (by decide)
    (List.prefix_refl _)
  exact ⟨s, e, hat 0, hat 1⟩

/-- A prefix of a disciplined sequence of events is disciplined. -/
theorem disciplined_prefix {nAxes : Nat} (s0 : State nAxes) (pre post : List (Call nAxes)) :
    ∀ hs : List Int, disciplined s0 hs (pre ++ post) = true → disciplined s0 hs pre = true := by
  induction pre with
  | nil => intro hs _; rfl
  | cons c pre ih =>
    intro hs h
    cases c with
    | gcOpen i =>
      simp only [List.cons_append, disciplined, Bool.and_eq_true] at h ⊢
      exact ⟨h.1, ih _ h.2⟩
    | gcClose gc =>
      simp only [List.cons_append, disciplined, Bool.and_eq_true] at h ⊢
      exact ⟨h.1, ih _ h.2⟩
    | inputs ai =>
      simp only [List.cons_append, disciplined] at h ⊢
      exact ih _ h

/-- With at most four controllers configured, every event of a disciplined sequence addresses
the table, and so does every handle it returns. -/
theorem disciplined_inTable {nAxes : Nat} (s0 : State nAxes) (hN : s0.numControllers ≤ 4)
    (cs : List (Call nAxes)) :
    ∀ hs : List Int, (∀ h ∈ hs, 0 ≤ h ∧ h < 4) → disciplined s0 hs cs = true →
      (∀ c ∈ cs, c.inTable) ∧ (∀ h ∈ handlesOf cs, 0 ≤ h ∧ h < 4) := by
  induction cs with
  | nil => intro hs _ _; simp [handlesOf]
  | cons c cs ih =>
    intro hs hhs hd
    cases c with
    | gcOpen i =>
      simp only [disciplined, Bool.and_eq_true] at hd
      have hi := (SDL_IsGameController_in_range s0 i).mp hd.1
      have hi4 : 0 ≤ i ∧ i < 4 := ⟨hi.1, by omega⟩
      obtain ⟨h1, h2⟩ := ih (i :: hs)
        (fun h hh => by
          rcases List.mem_cons.mp hh with e | e
          · rw [e]; exact hi4
          · exact hhs h e) hd.2
      constructor
      · intro c hcm
        rcases List.mem_cons.mp hcm with e | e
        · rw [e]; exact hi4
        · exact h1 c e
      · intro h hh
        simp only [handlesOf, List.mem_cons] at hh
        rcases hh with e | e
        · rw [e]; exact hi4
        · exact h2 h e
    | gcClose gc =>
      simp only [disciplined, Bool.and_eq_true, decide_eq_true_eq] at hd
      obtain ⟨h1, h2⟩ := ih hs hhs hd.2
      constructor
      · intro c hcm
        rcases List.mem_cons.mp hcm with e | e
        · rw [e]; exact hhs gc hd.1
        · exact h1 c e
      · intro h hh
        simp only [handlesOf] at hh
        exact h2 h hh
    | inputs ai =>
      simp only [disciplined] at hd
      obtain ⟨h1, h2⟩ := ih hs hhs hd
      constructor
      · intro c hcm
        rcases List.mem_cons.mp hcm with e | e
        · rw [e]; trivial
        · exact h1 c e
      · intro h hh
        simp only [handlesOf] at hh
        exact h2 h hh

/-- In a state whose entries `joyid[k]` are -1 or `k`, every entry point called with an index or
handle inside the table stays inside `joyid` and inside the axis table: each returns a value,
and an axis outside `[0, SDL_CONTROLLER_AXIS_MAX)` is answered 0 without a read of the axis
table. -/
theorem entry_points_defined {nAxes : Nat} (s : State nAxes)
    (hinv : ∀ k : Fin 4, s.joyid k = -1 ∨ s.joyid k = ((k : Nat) : Int))
    (h : Int) (h0 : 0 ≤ h) (h4 : h < 4) :
    (SDL_GameControllerOpen s h).isSome = true ∧
    (SDL_GameControllerGetAttached s h).isSome = true ∧
    (∀ a : Int, (SDL_GameControllerGetAxis s h a).isSome = true) ∧
    (∀ a : Int, ¬ (0 ≤ a ∧ a < SDL_CONTROLLER_AXIS_MAX nAxes) →
      SDL_GameControllerGetAxis s h a = some 0) ∧
    (∀ BUTTON_MAX b : Int, (SDL_GameControllerGetButton BUTTON_MAX s h b).isSome = true) ∧
    (SDL_GameControllerClose s h).isSome = true := by
  obtain ⟨k, hk⟩ := exists_fin_of_inside h h0 h4
  subst hk
  have hk4 := k.isLt
  refine ⟨?_, ?_, ?_, ?_, ?_, ?_⟩
  · simp only [SDL_GameControllerOpen, writeSlot_fin, Option.isSome_some]
  · simp only [SDL_GameControllerGetAttached_fin, Option.isSome_some]
  · intro a
    unfold SDL_GameControllerGetAxis
    rw [readSlot_fin]
    simp only
    split
    · rfl
    · rename_i hne
      split
      · rfl
      · rename_i hsel
        have hj : s.joyid k = ((k : Nat) : Int) := (hinv k).resolve_left hne
        rw [hj, readSlot_fin]
        simp only [SDL_CONTROLLER_AXIS_MAX] at hsel
        simp only [readAxis]
        rw [dif_pos ⟨by omega, by omega⟩]
        rfl
  · intro a ha
    unfold SDL_GameControllerGetAxis
    rw [readSlot_fin]
    simp only
    split
    · rfl
    · have hsel : a < 0 ∨ a ≥ SDL_CONTROLLER_AXIS_MAX nAxes := by omega
      simp only [hsel, if_true]
  · intro BUTTON_MAX b
    unfold SDL_GameControllerGetButton
    rw [readSlot_fin]
    simp only
    split
    · rfl
    · rename_i hne
      split
      · rfl
      · have hj : s.joyid k = ((k : Nat) : Int) := (hinv k).resolve_left hne
        rw [hj, readSlot_fin]
        rfl
  · simp only [SDL_GameControllerClose, writeSlot_fin, Option.isSome_some]

/-- C17: index safety of the controller table. When the configured count is at most 4, and in
a sequence of events from the initial state `SDL_GameControllerOpen` is only called with indices
for which `SDL_IsGameController` is true and `SDL_GameControllerClose` only with handles returned
by earlier opens, then after every prefix `pre` of the sequence: every open and close of the
prefix has stayed inside `joyid[4]` (the run is defined), every handle returned lies in
`[0, 4)`, and on every such handle get-attached, get-axis, get-button and close stay inside the
table for every axis and button argument (each returns a value); an axis outside
`[0, SDL_CONTROLLER_AXIS_MAX)` is answered 0, so that every read of the axis table uses an axis
index inside it. A further open of an index for which `SDL_IsGameController` is true stays inside
the table as well. -/
theorem controller_table_index_safety {nAxes : Nat} (N : Int) (ai : AllInputs nAxes)
    (cs pre : List (Call nAxes)) (hN : N ≤ 4)
    (hd : disciplined (State.initial N ai) [] cs = true) (hpre : pre <+: cs) :
    ∃ s : State nAxes, run (State.initial N ai) pre = some s ∧
      (∀ h ∈ handlesOf pre, (0 ≤ h ∧ h < 4) ∧
        (SDL_GameControllerGetAttached s h).isSome = true ∧
        (∀ a : Int, (SDL_GameControllerGetAxis s h a).isSome = true) ∧
        (∀ a : Int, ¬ (0 ≤ a ∧ a < SDL_CONTROLLER_AXIS_MAX nAxes) →
          SDL_GameControllerGetAxis s h a = some 0) ∧
        (∀ BUTTON_MAX b : Int, (SDL_GameControllerGetButton BUTTON_MAX s h b).isSome = true) ∧
        (SDL_GameControllerClose s h).isSome = true) ∧
      (∀ i : Int, SDL_IsGameController s i = true → (SDL_GameControllerOpen s i).isSome = true) := by
  obtain ⟨post, hpost⟩ := hpre
  subst hpost
  have hdp := disciplined_prefix (State.initial N ai) pre post [] hd
  obtain ⟨hin, hh⟩ := disciplined_inTable (State.initial N ai) hN pre []
    (fun h hm => absurd hm (List.not_mem_nil h)) hdp
  obtain ⟨s, e, hinv, _⟩ := run_inTable pre (State.initial N ai) hin (fun _ => Or.inl rfl)
  have hnum : s.numControllers = N := run_numControllers pre (State.initial N ai) s e
  refine ⟨s, e, ?_, ?_⟩
  · intro h hm
    obtain ⟨h0, h4⟩ := hh h hm
    obtain ⟨_, b, c, d, f, g⟩ := entry_points_defined s hinv h h0 h4
    exact ⟨⟨h0, h4⟩, b, c, d, f, g⟩
  · intro i hi
    have hr := (SDL_IsGameController_in_range s i).mp hi
    rw [hnum] at hr
    exact (entry_points_defined s hinv i hr.1 (by omega)).1

/-- Witness of C17: two controllers configured; open 0, open 1, new inputs, close 0, open 0. -/
theorem controller_table_index_safety_witness :
    ∃ s : State 6,
      run twoControllers
        [.gcOpen 0, .gcOpen 1, .inputs (AllInputs.const 6 7 0xFF), .gcClose 0, .gcOpen 0]
        = some s ∧
      (∀ h ∈ ([0, 1, 0] : List Int), (0 ≤ h ∧ h < 4) ∧
        (SDL_GameControllerGetAttached s h).isSome = true ∧
        (∀ a : Int, (SDL_GameControllerGetAxis s h a).isSome = true) ∧
        (∀ a : Int, ¬ (0 ≤ a ∧ a < SDL_CONTROLLER_AXIS_MAX 6) →
          SDL_GameControllerGetAxis s h a = some 0) ∧
        (∀ BUTTON_MAX b : Int, (SDL_GameControllerGetButton BUTTON_MAX s h b).isSome = true) ∧
        (SDL_GameControllerClose s h).isSome = true) ∧
      (∀ i : Int, SDL_IsGameController s i = true → (SDL_GameControllerOpen s i).isSome = true) :=
  controller_table_index_safety 2 (AllInputs.empty 6)
    [.gcOpen 0, .gcOpen 1, .inputs (AllInputs.const 6 7 0xFF), .gcClose 0, .gcOpen 0]
    [.gcOpen 0, .gcOpen 1, .inputs (AllInputs.const 6 7 0xFF), .gcClose 0, .gcOpen 0]
    (by decide) (by decide) (List.prefix_refl _)

end libtas
